import Mathlib

/-!
# cxxnet: the multi-device trainer `CXXNetThreadTrainer`

A shallow embedding of `src/nnet/nnet_impl-inl.hpp`.

* `mshadow::index_t` is `unsigned` (it is printed with `%u` in `InitNet`): a natural
  number reduced modulo `INDEX_MOD = 2 ^ 32` after every arithmetic operation.
* `size_t` is `unsigned long` (the code mixes it with the literal `1UL`): a natural
  number reduced modulo `SIZE_MOD = 2 ^ 64`.
* `int` and `long` values are integers; signed overflow is undefined in C++ and is not
  given a meaning here.
* Calls that dereference a missing object, fail a `utils::Assert` / `utils::Check`,
  divide by zero, or read past the end of a stream return `none`.
* `float` values are the elements of an ordered type; only their comparison is used.
* The collaborators whose code is not in this file (`NetConfig`, `NeuralNetThread`,
  `utils::IStream`, `DataBatch`, `utils::MetricSet`) are parameters or are modelled from
  the specification; their doc comments say so.
* The worker threads are joined by `WaitJob` before any result is read, so every job is
  modelled by its result.
-/

namespace cxxnet
namespace nnet

/-! ## Machine integers -/

/-- The number of values of `mshadow::index_t` (`unsigned`). -/
def INDEX_MOD : Nat := 2 ^ 32

/-- The number of values of `size_t` (`unsigned long`). -/
def SIZE_MOD : Nat := 2 ^ 64

/-! ## Batch partitioning (`Update`, `ForwardTo`, `InitNet`) -/

/-- The expression `std::max((batch_size + ndevice - 1) / ndevice, 1UL)` of `Update`,
`ForwardTo` and `InitNet`: evaluated in `size_t`, then stored in the `index_t`
variable `step`. -/
def stepOf (batch_size ndevice : Nat) : Nat :=
  (max (((batch_size + ndevice + (SIZE_MOD - 1)) % SIZE_MOD) / ndevice) 1) % INDEX_MOD

/-- One iteration of the dispatch loops: the replica `nets_[i - 1]` and the bounds
`begin`, `end` of the slice it is handed. -/
structure SliceRange where
  replica : Nat
  begin_ : Nat
  end_ : Nat
  deriving DecidableEq

/-- The loop `for (index_t i = n; i != 0; --i)` of `Update` and `ForwardTo` with
`begin = std::min((i - 1) * step, data.batch_size)` and
`end = std::min(i * step, data.batch_size)`, all in `index_t`.  The argument counts
down like the loop variable; the ranges are listed in dispatch order. -/
def sliceLoop (step data_batch_size : Nat) : Nat → List SliceRange
  | 0 => []
  | i + 1 =>
    { replica := i
      begin_ := min ((i * step) % INDEX_MOD) data_batch_size
      end_ := min (((i + 1) * step) % INDEX_MOD) data_batch_size } ::
      sliceLoop step data_batch_size i

/-- The ranges `Update` and `ForwardTo` compute for a batch of `data_batch_size`
samples: `ndevice = devices_.size()` gives the step from the configured `batch_size`,
and the loop variable starts at `nets_.size()` converted to `index_t`. -/
def dispatchRanges (batch_size ndevice nets_size data_batch_size : Nat) : List SliceRange :=
  sliceLoop (stepOf batch_size ndevice) data_batch_size (nets_size % INDEX_MOD)

/-- Whether sample index `x` lies in the half-open range `[begin, end)`. -/
def SliceRange.covers (x : Nat) (r : SliceRange) : Bool :=
  decide (r.begin_ ≤ x) && decide (x < r.end_)

/-- The loop `while (step * (devices_.size() - 1) >= batch_size) devices_.pop_back();`
of `InitNet`; the product is formed in `size_t`.  `pop_back` on an empty vector is
undefined and gives `none`, as does running out of `fuel`. -/
def shrinkLoop (step batch_size : Nat) : Nat → List Int → Option (List Int)
  | 0, _ => none
  | fuel + 1, devices_ =>
    if (step * ((devices_.length + (SIZE_MOD - 1)) % SIZE_MOD)) % SIZE_MOD ≥ batch_size then
      match devices_ with
      | [] => none
      | _ :: _ => shrinkLoop step batch_size fuel devices_.dropLast
    else some devices_

/-- The device bookkeeping of `InitNet` (lines 316-328): default the device list to
`[0]`, compute `step` once, shrink the list, and lower `ndevice` when devices were
dropped.  Returns `(step, devices_, ndevice)`. -/
def InitNet_devices (batch_size : Nat) (devices_ : List Int) : Option (Nat × List Int × Nat) :=
  let devices_ := if devices_.length = 0 then devices_ ++ [0] else devices_
  let ndevice := devices_.length
  let step := stepOf batch_size ndevice
  match shrinkLoop step batch_size (devices_.length + 1) devices_ with
  | none => none
  | some devices_ =>
    some (step, devices_, if ndevice > devices_.length then devices_.length else ndevice)

/-! ## Collaborators that are not among the sources -/

/-- Modelled from the spec: `NetConfig` (`nnet_config.h` is not among the sources).  Of
the network topology the trainer reads the layer names (`layers[i].name`) and the
declared label field ranges (`label_range`). -/
structure NetConfig where
  layers : List String
  label_range : List (Nat × Nat)
  deriving DecidableEq

/-- Modelled from the spec: the parameter synchronizer `mshadow::ps::ISharedModel`
made by `CreateSharedModel(type)`, with the options it was given through `SetParam`
and the device list handed to `Init`. -/
structure SharedModel where
  type : String
  params : List (String × String)
  devices : List Int
  deriving DecidableEq

/-- Modelled from the spec: one replica, `NeuralNetThread<xpu>` (`neural_net-inl.hpp` is
not among the sources), with its constructor arguments and the weights of its layers,
each layer in serialized form. -/
structure NeuralNetThread where
  cfg : NetConfig
  pserver : Option SharedModel
  device : Int
  batch_size : Nat
  seed : Int
  weights : List (List Nat)
  deriving DecidableEq

/-- Modelled from the spec: the operations of the network-configuration and replica
collaborators whose code is not among the sources: `NetConfig::SaveNet`, `LoadNet` and
`Configure`, the weight initialization of `NeuralNetThread::InitModel`, and the whole-net
`SaveModel` / `LoadModel` of a replica. -/
structure Collaborators where
  SaveNet : NetConfig → List Nat
  LoadNet : List Nat → Option (NetConfig × List Nat)
  Configure : NetConfig → List (String × String) → NetConfig
  InitWeights : NetConfig → Int → List (List Nat)
  NetSave : List (List Nat) → List Nat
  NetLoad : NetConfig → List Nat → List (List Nat)

/-- The constructor call `new NeuralNetThread<xpu>(net_cfg, pserver, device, step, seed)`. -/
def NeuralNetThread.create (cfg : NetConfig) (pserver : Option SharedModel) (device : Int)
    (batch_size : Nat) (seed : Int) : NeuralNetThread :=
  { cfg := cfg, pserver := pserver, device := device, batch_size := batch_size,
    seed := seed, weights := [] }

/-- The job `nets_[i]->InitModel(); nets_[i]->WaitJob();`. -/
def NeuralNetThread.InitModel (c : Collaborators) (r : NeuralNetThread) : NeuralNetThread :=
  { r with weights := c.InitWeights r.cfg r.seed }

/-- The job `nets_[i]->SaveModel(fs); nets_[i]->WaitJob();`: the bytes written to `fs`. -/
def NeuralNetThread.SaveModel (c : Collaborators) (r : NeuralNetThread) : List Nat :=
  c.NetSave r.weights

/-- The job `nets_[i]->LoadModel(fs); nets_[i]->WaitJob();` with `fs` over `blob`. -/
def NeuralNetThread.LoadModel (c : Collaborators) (r : NeuralNetThread) (blob : List Nat) :
    NeuralNetThread :=
  { r with weights := c.NetLoad r.cfg blob }

/-- The job `nets_[k]->CopyLayer(j, fs); nets_[k]->WaitJob();` with `fs` holding `data`,
the serialized weights of one layer: layer `j` takes them. -/
def NeuralNetThread.CopyLayer (r : NeuralNetThread) (j : Nat) (data : List Nat) :
    NeuralNetThread :=
  { r with weights := r.weights.set j data }

/-! ## Streams (`utils::IStream`) -/

/-- The 8 bytes of a 64-bit word, lowest first. -/
def writeWord (u : Nat) : List Nat :=
  [u % 256, u / 256 % 256, u / 256 ^ 2 % 256, u / 256 ^ 3 % 256, u / 256 ^ 4 % 256,
    u / 256 ^ 5 % 256, u / 256 ^ 6 % 256, u / 256 ^ 7 % 256]

/-- Read a 64-bit word from the front of a stream; `none` when fewer than 8 bytes are
left. -/
def readWord (fi : List Nat) : Option (Nat × List Nat) :=
  if fi.length < 8 then none
  else some ((fi.take 8).foldr (fun b acc => b + 256 * acc) 0, fi.drop 8)

/-- The call `fo.Write(&epoch_counter, sizeof(epoch_counter))`: the object representation
of a `long` (two's complement, 8 bytes). -/
def writeLong (v : Int) : List Nat :=
  writeWord (v % (2 : Int) ^ 64).toNat

/-- The call `fi.Read(&epoch_counter, sizeof(epoch_counter))`. -/
def readLong (fi : List Nat) : Option (Int × List Nat) :=
  match readWord fi with
  | none => none
  | some (u, rest) => some (if u < 2 ^ 63 then (u : Int) else (u : Int) - (2 : Int) ^ 64, rest)

/-- Modelled from the spec: `IStream::Write(const std::string &)` (`utils/io.h` is not
among the sources): the length-prefixed blob of the persisted model format, a 64-bit
length followed by the bytes. -/
def writeString (data : List Nat) : List Nat :=
  writeWord (data.length % SIZE_MOD) ++ data

/-- Modelled from the spec: `IStream::Read(std::string *)`, the reader of the
length-prefixed blob; `none` when the stream ends early. -/
def readString (fi : List Nat) : Option (List Nat × List Nat) :=
  match readWord fi with
  | none => none
  | some (n, rest) => if rest.length < n then none else some (rest.take n, rest.drop n)

/-! ## C library calls used by `SetParam` -/

/-- The C library's `isspace(c)` in the C locale: the space and the characters 9 to 13. -/
def isspace (c : Char) : Bool :=
  c.toNat = 32 || (9 ≤ c.toNat && c.toNat ≤ 13)

/-- The digits read by a `%d` conversion. -/
def scanDigits : List Char → Nat → Nat × List Char
  | [], acc => (acc, [])
  | c :: cs, acc =>
    if c.isDigit then scanDigits cs (acc * 10 + (c.toNat - 48)) else (acc, c :: cs)

/-- One `%d` conversion of `sscanf`: leading white space, an optional sign, at least one
digit.  Returns the value and the unread rest. -/
def scanInt (s : List Char) : Option (Int × List Char) :=
  let s := s.dropWhile isspace
  let signed : Bool × List Char :=
    match s with
    | '-' :: r => (true, r)
    | '+' :: r => (false, r)
    | _ => (false, s)
  match signed.2 with
  | [] => none
  | c :: _ =>
    if c.isDigit then
      let res := scanDigits signed.2 0
      some (if signed.1 then - (res.1 : Int) else (res.1 : Int), res.2)
    else none

/-- The C library's `atoi(val)`. -/
def atoi (val : String) : Int :=
  match scanInt val.toList with
  | some (v, _) => v
  | none => 0

/-- The test `sscanf(s, "%d-%d", &a, &b) == 2` and the two values read. -/
def scanRange (s : List Char) : Option (Int × Int) :=
  match scanInt s with
  | none => none
  | some (a, rest) =>
    match rest with
    | '-' :: rest =>
      match scanInt rest with
      | none => none
      | some (b, _) => some (a, b)
    | _ => none

/-- The tokens `strtok(..., ",")` returns: the maximal comma-free pieces that are not
empty. -/
def strtok_comma : List Char → List Char → List (List Char)
  | [], tok => if tok = [] then [] else [tok]
  | c :: cs, tok =>
    if c = ',' then (if tok = [] then strtok_comma cs [] else tok :: strtok_comma cs [])
    else strtok_comma cs (tok ++ [c])

/-- The loop over the tokens: `utils::Check(sscanf(ptr, "%d", &a) == 1, ...)` and
`devices_.push_back(a)`. -/
def scanTokens : List (List Char) → Option (List Int)
  | [] => some []
  | tok :: toks =>
    match scanInt tok with
    | none => none
    | some (a, _) =>
      match scanTokens toks with
      | none => none
      | some rest => some (a :: rest)

/-- The integers `a, a + 1, …, b` pushed by `for (int i = a; i <= b; ++i)`. -/
def intRange (a b : Int) : List Int :=
  (List.range (b + 1 - a).toNat).map fun k => a + (k : Int)

/-- The `dev` branch of `SetParam` (lines 33-50): the device list after
`devices_.clear()`, or `none` when `utils::Check` fails. -/
def parseDevices (val : String) : Option (List Int) :=
  match val.toList.dropWhile (fun c => c ≠ ':') with
  | [] => some []
  | _ :: devs =>
    match scanRange devs with
    | some (a, b) => some (intRange a b)
    | none => scanTokens (strtok_comma devs [])

/-- The test `sscanf(name, "metric[%[^]]]", label_name) == 1`: the label name between
the brackets. -/
def scanMetricLabel (name : String) : Option String :=
  match name.toList with
  | 'm' :: 'e' :: 't' :: 'r' :: 'i' :: 'c' :: '[' :: rest =>
    let label := rest.takeWhile (fun c => c ≠ ']')
    if label = [] then none else some (String.mk label)
  | _ => none

/-! ## The trainer -/

/-- The fields of `CXXNetThreadTrainer` (lines 368-403).  The metric sets keep the
`(metric, label name)` pairs given to `AddMetric`; `silent` and `out_temp` are left out
(the first only guards `printf`, the second is resized before every use). -/
structure CXXNetThreadTrainer where
  pserver : Option SharedModel
  type_pserver : String
  epoch_counter : Int
  seed : Int
  update_period : Int
  sample_counter : Int
  eval_train : Int
  metric : List (String × String)
  train_metric : List (String × String)
  batch_size : Nat
  devices_ : List Int
  model_blob_ : List Nat
  nets_ : List NeuralNetThread
  net_cfg : NetConfig
  cfg : List (String × String)
  deriving DecidableEq

/-- The constructor `CXXNetThreadTrainer(void)` (lines 18-27). -/
def CXXNetThreadTrainer.fresh : CXXNetThreadTrainer :=
  { pserver := none
    type_pserver := "UNSPECIFIED"
    epoch_counter := 0
    seed := 0
    update_period := 1
    sample_counter := 0
    eval_train := 1
    metric := []
    train_metric := []
    batch_size := 100
    devices_ := []
    model_blob_ := []
    nets_ := []
    net_cfg := { layers := [], label_range := [] }
    cfg := [] }

/-- The method `SetParam(name, val)` (lines 31-66); `none` when `utils::Check` fails. -/
def SetParam (t : CXXNetThreadTrainer) (name val : String) : Option CXXNetThreadTrainer :=
  match (if name = "dev" then parseDevices val else some t.devices_) with
  | none => none
  | some devices_ =>
    let t := { t with devices_ := devices_ }
    let t := if name = "batch_size" then
      { t with batch_size := (atoi val % (INDEX_MOD : Int)).toNat } else t
    let t := if name = "update_period" then { t with update_period := atoi val } else t
    let t := if name = "eval_train" then { t with eval_train := atoi val } else t
    let t := if name = "seed" then { t with seed := atoi val } else t
    let t := if name = "param_server" then { t with type_pserver := val } else t
    let t := if name.toList.take 6 = "metric".toList then
      (match scanMetricLabel name with
       | some label_name =>
         { t with metric := t.metric ++ [(val, label_name)]
                  train_metric := t.train_metric ++ [(val, label_name)] }
       | none =>
         { t with metric := t.metric ++ [(val, "label")]
                  train_metric := t.train_metric ++ [(val, "label")] })
      else t
    some { t with cfg := t.cfg ++ [(name, val)] }

/-- The method `FreeNet()` (lines 358-367). -/
def FreeNet (t : CXXNetThreadTrainer) : CXXNetThreadTrainer :=
  { t with nets_ := [], pserver := none }

/-- The method `InitParamServer()` (lines 338-352); `none` when `utils::Assert` fails. -/
def InitParamServer (t : CXXNetThreadTrainer) : Option CXXNetThreadTrainer :=
  if t.pserver.isSome then none
  else
    let t := if t.type_pserver = "UNSPECIFIED" then
      (if t.devices_.length ≤ 1 then { t with type_pserver := "NONE" }
       else { t with type_pserver := "local" })
      else t
    if t.type_pserver ≠ "NONE" then
      let devices_ := if t.devices_.length = 0 then t.devices_ ++ [0] else t.devices_
      some { t with devices_ := devices_
                    pserver := some { type := t.type_pserver, params := t.cfg,
                                      devices := devices_ } }
    else some t

/-- The method `InitNet()` (lines 313-337); `none` when `utils::Assert` fails. -/
def InitNet (c : Collaborators) (t : CXXNetThreadTrainer) : Option CXXNetThreadTrainer :=
  if t.nets_.length ≠ 0 then none
  else
    let t := { t with net_cfg := c.Configure t.net_cfg t.cfg }
    match InitNet_devices t.batch_size t.devices_ with
    | none => none
    | some (step, devices_, ndevice) =>
      match InitParamServer { t with devices_ := devices_ } with
      | none => none
      | some t =>
        let nets_ := (List.range ndevice).map fun i =>
          NeuralNetThread.create t.net_cfg t.pserver (t.devices_.getD i 0) step
            ((i : Int) + t.seed * 100)
        some { t with nets_ := nets_ }

/-- The method `Save2ModelBlob()` (lines 306-312); `none` when there is no `nets_[0]`. -/
def Save2ModelBlob (c : Collaborators) (t : CXXNetThreadTrainer) :
    Option CXXNetThreadTrainer :=
  match t.nets_ with
  | [] => none
  | r0 :: _ => some { t with model_blob_ := r0.SaveModel c }

/-- The method `InitModel()` (lines 67-78). -/
def InitModel (c : Collaborators) (t : CXXNetThreadTrainer) : Option CXXNetThreadTrainer :=
  match InitNet c t with
  | none => none
  | some t =>
    match t.nets_ with
    | [] => none
    | r0 :: rest =>
      match Save2ModelBlob c { t with nets_ := r0.InitModel c :: rest } with
      | none => none
      | some t =>
        match t.nets_ with
        | [] => none
        | r0 :: rest =>
          let rest := rest.map fun r => r.LoadModel c t.model_blob_
          some { t with nets_ := r0 :: rest }

/-- The method `SaveModel(fo)` (lines 79-84): the trainer afterwards and the bytes
written to `fo`. -/
def SaveModel (c : Collaborators) (t : CXXNetThreadTrainer) :
    Option (CXXNetThreadTrainer × List Nat) :=
  match Save2ModelBlob c t with
  | none => none
  | some t =>
    some (t, c.SaveNet t.net_cfg ++ writeLong t.epoch_counter ++ writeString t.model_blob_)

/-- The method `LoadModel(fi)` (lines 85-97). -/
def LoadModel (c : Collaborators) (t : CXXNetThreadTrainer) (fi : List Nat) :
    Option CXXNetThreadTrainer :=
  match c.LoadNet fi with
  | none => none
  | some (net_cfg, fi) =>
    match readLong fi with
    | none => none
    | some (epoch_counter, fi) =>
      match InitNet c (FreeNet { t with net_cfg := net_cfg, epoch_counter := epoch_counter }) with
      | none => none
      | some t =>
        match readString fi with
        | none => none
        | some (model_blob_, _) =>
          match t.nets_ with
          | [] => none
          | _ :: _ =>
            let nets_ := t.nets_.map fun r => r.LoadModel c model_blob_
            some { t with model_blob_ := model_blob_, nets_ := nets_ }

/-- One pass of the inner loop of `CopyModelFrom` (lines 116-129) for the old layer `i`
with name `old_name` and serialized weights `data`: every new layer `j` with
`old_name == new_name && old_name != ""` is copied into every replica.  The state is the
replicas and the log of the pairs `(i, j)` announced by `printf("Copying layer ...")`. -/
def copyInner (old_name : String) (data : List Nat) (i : Nat) (new_layers : List String)
    (st : List NeuralNetThread × List (Nat × Nat)) : List NeuralNetThread × List (Nat × Nat) :=
  (List.range new_layers.length).foldl
    (fun st j =>
      if old_name = new_layers.getD j "" ∧ old_name ≠ "" then
        (st.1.map fun r => r.CopyLayer j data, st.2 ++ [(i, j)])
      else st)
    st

/-- The loop nest of `CopyModelFrom` (lines 114-130); `old_weights` are the layers of
`old_net`, and `old_net.connections[i].layer->SaveModel(fs)` writes the `i`-th of them. -/
def copyLayers (old_cfg : NetConfig) (old_weights : List (List Nat)) (net_cfg : NetConfig)
    (nets_ : List NeuralNetThread) : List NeuralNetThread × List (Nat × Nat) :=
  (List.range old_cfg.layers.length).foldl
    (fun st i =>
      copyInner (old_cfg.layers.getD i "") (old_weights.getD i []) i net_cfg.layers st)
    (nets_, [])

/-- The method `CopyModelFrom(fi)` (lines 98-131): the trainer afterwards and the log of
copied layer pairs `(old index, new index)`. -/
def CopyModelFrom (c : Collaborators) (t : CXXNetThreadTrainer) (fi : List Nat) :
    Option (CXXNetThreadTrainer × List (Nat × Nat)) :=
  match InitModel c (FreeNet t) with
  | none => none
  | some t =>
    match c.LoadNet fi with
    | none => none
    | some (old_cfg, fi) =>
      match readLong fi with
      | none => none
      | some (_, fi) =>
        match readString fi with
        | none => none
        | some (old_model, _) =>
          let old_net := (NeuralNetThread.create old_cfg none 0 0 0).LoadModel c old_model
          let res := copyLayers old_cfg old_net.weights t.net_cfg t.nets_
          some ({ t with epoch_counter := 0, nets_ := res.1 }, res.2)

/-- The arguments of one `TrainForwardBackprop` call of `Update`: the slice, and the
flags and epoch passed along. -/
structure TrainJob where
  range : SliceRange
  need_sync : Bool
  need_update : Bool
  epoch : Int
  deriving DecidableEq

/-- What one `Update` call does: its two flags, the jobs it dispatches (in dispatch
order) and the trainer afterwards. -/
structure UpdateResult where
  need_sync : Bool
  need_update : Bool
  jobs : List TrainJob
  trainer : CXXNetThreadTrainer
  deriving DecidableEq

/-- The method `Update(data)` (lines 138-173) on a batch of `data_batch_size` samples;
`none` when it divides by zero (`devices_` empty or `update_period == 0`).  `%` on `int`
truncates. -/
def Update (t : CXXNetThreadTrainer) (data_batch_size : Nat) : Option UpdateResult :=
  if t.devices_.length = 0 ∨ t.update_period = 0 then none
  else
    let need_sync := decide (Int.tmod t.sample_counter t.update_period = 0)
    let need_update := decide (Int.tmod (t.sample_counter + 1) t.update_period = 0)
    let jobs :=
      (dispatchRanges t.batch_size t.devices_.length t.nets_.length data_batch_size).map
        fun r => { range := r, need_sync := need_sync, need_update := need_update,
                   epoch := t.epoch_counter }
    let t :=
      if t.sample_counter + 1 ≥ t.update_period then
        { t with sample_counter := 0, epoch_counter := t.epoch_counter + 1 }
      else { t with sample_counter := t.sample_counter + 1 }
    some { need_sync := need_sync, need_update := need_update, jobs := jobs, trainer := t }

/-- Consecutive `Update` calls, one per batch size of the list: the flags
`(need_sync, need_update)` of every call and the trainer at the end. -/
def runUpdates : CXXNetThreadTrainer → List Nat →
    Option (List (Bool × Bool) × CXXNetThreadTrainer)
  | t, [] => some ([], t)
  | t, b :: bs =>
    match Update t b with
    | none => none
    | some res =>
      match runUpdates res.trainer bs with
      | none => none
      | some (flags, t) => some ((res.need_sync, res.need_update) :: flags, t)

/-! ## Prediction (`Predict`, `TransformPred`, `GetMaxIndex`) -/

/-- The loop of `GetMaxIndex` (lines 268-270) from index `i` on, with `fuel` iterations
left: `if (pred[i] > pred[maxidx]) maxidx = i;`. -/
def GetMaxIndex_loop {α : Type} [LT α] [DecidableRel (fun a b : α => a < b)]
    (pred : List α) : Nat → Nat → Nat → Nat
  | 0, _, maxidx => maxidx
  | fuel + 1, i, maxidx =>
    if i < pred.length then
      match pred[i]?, pred[maxidx]? with
      | some a, some b =>
        if b < a then GetMaxIndex_loop pred fuel (i + 1) i
        else GetMaxIndex_loop pred fuel (i + 1) maxidx
      | _, _ => GetMaxIndex_loop pred fuel (i + 1) maxidx
    else maxidx

/-- The method `GetMaxIndex(pred)` (lines 266-272). -/
def GetMaxIndex {α : Type} [LT α] [DecidableRel (fun a b : α => a < b)] (pred : List α) : Nat :=
  GetMaxIndex_loop pred pred.length 1 0

/-- The method `TransformPred(pred)` (lines 259-265); `ofIndex` is the conversion of the
`int` index to `float` done by the `return`. -/
def TransformPred {α : Type} [LT α] [DecidableRel (fun a b : α => a < b)]
    (ofIndex : Nat → α) (pred : List α) : α :=
  if h : pred.length ≠ 1 then ofIndex (GetMaxIndex pred)
  else pred.get ⟨0, by omega⟩

/-- The job `nets_[i - 1]->CopyNodeData(layer, out_data->Slice(begin, end))` of the
second loop of `ForwardTo` (line 296): the rows `[begin, end)` of the output buffer take
the activations replica `i - 1` computed for its slice by `PredictForward` (line 289);
`act k x` is the activation replica `k` holds for sample `x`.  The buffer is given by
its rows. -/
def CopyNodeData {α : Type} (act : Nat → Nat → List α) (r : SliceRange)
    (out_data : Nat → List α) : Nat → List α :=
  fun x => if r.covers x then act r.replica x else out_data x

/-- The method `ForwardTo(out_data, data, layer)` (lines 273-299): the rows of the output
buffer afterwards.  `Resize out_data n` gives the rows the buffer holds after
`out_data->Resize(oshape)` with `oshape[0] = n = data.batch_size` (line 277; the tensor
library is not among the sources, so what resizing leaves in the rows is a parameter).
Both loops run over the same ranges; the second copies each replica's activations into
its slice, in dispatch order, and a row in no slice keeps what `Resize` left.  `none`
when `nets_[0]` is missing, when the step divides by zero, or when a slice has
`begin > end` (its `index_t` length `end - begin` then exceeds the buffer). -/
def ForwardTo {α : Type} (Resize : (Nat → List α) → Nat → Nat → List α)
    (act : Nat → Nat → List α) (t : CXXNetThreadTrainer)
    (data_batch_size : Nat) (out_data : Nat → List α) : Option (Nat → List α) :=
  if t.nets_.length = 0 ∨ t.devices_.length = 0 then none
  else if (dispatchRanges t.batch_size t.devices_.length t.nets_.length
      data_batch_size).any (fun r => decide (r.end_ < r.begin_)) then none
  else
    some ((dispatchRanges t.batch_size t.devices_.length t.nets_.length
      data_batch_size).foldl (fun out r => CopyNodeData act r out)
      (Resize out_data data_batch_size))

/-- The method `Predict(out_preds, data)` (lines 174-182): `ForwardTo` into `out_temp`,
then `TransformPred` on each of its `out_temp.size(0) = data.batch_size` rows. -/
def Predict {α : Type} [LT α] [DecidableRel (fun a b : α => a < b)]
    (ofIndex : Nat → α) (Resize : (Nat → List α) → Nat → Nat → List α)
    (act : Nat → Nat → List α) (t : CXXNetThreadTrainer)
    (data_batch_size : Nat) (out_temp : Nat → List α) : Option (List α) :=
  (ForwardTo Resize act t data_batch_size out_temp).map fun out =>
    (List.range data_batch_size).map fun i => TransformPred ofIndex (out i)

/-! ## Evaluation (`Evaluate`, `GetLabelInfo`) -/

/-- Modelled from the spec: `DataBatch` (`io/data.h` is not among the sources): the
sample count, the number of padding samples at the end, and the label tensor, one row
per sample.  The features are left out. -/
structure DataBatch (α : Type) where
  batch_size : Nat
  num_batch_padd : Nat
  label : List (List α)
  deriving DecidableEq

/-- Modelled from the spec: `layer::LabelInfo`: one label tensor per declared label
range, each given by its rows. -/
structure LabelInfo (α : Type) where
  fields : List (List (List α))
  deriving DecidableEq

/-- The method `GetLabelInfo(data)` (lines 244-258): for every range `(begin, end)` of
`net_cfg.label_range` a view of `data.batch_size` rows holding the columns
`[begin, end)` of the label tensor. -/
def GetLabelInfo {α : Type} (net_cfg : NetConfig) (data : DataBatch α) : LabelInfo α :=
  { fields := net_cfg.label_range.map fun range =>
      (List.range data.batch_size).map fun row =>
        ((data.label.getD row []).drop range.1).take
          ((range.2 + INDEX_MOD - range.1) % INDEX_MOD) }

/-- The two arguments of one `metric.AddEval(predscore, labels)` call. -/
structure AddEvalCall (α : Type) where
  predscore : List (List α)
  labels : LabelInfo α
  deriving DecidableEq

/-- The body of the loop of `Evaluate` (lines 211-214) for one batch: `ForwardTo` into
`out_temp`, then the `metric.AddEval` call; returns the buffer afterwards and the two
arguments of the call.  `act batch k x` is the activation replica `k` computes for sample
`x` of the batch.  `none` when `ForwardTo` fails or the slice bound
`out_temp.size(0) - batch.num_batch_padd` (an `index_t`) exceeds the row count. -/
def Evaluate_batch {α : Type} (Resize : (Nat → List α) → Nat → Nat → List α)
    (act : DataBatch α → Nat → Nat → List α)
    (t : CXXNetThreadTrainer) (out_temp : Nat → List α) (batch : DataBatch α) :
    Option ((Nat → List α) × AddEvalCall α) :=
  match ForwardTo Resize (act batch) t batch.batch_size out_temp with
  | none => none
  | some out_temp =>
    let size0 := batch.batch_size
    let bound := (size0 + INDEX_MOD - batch.num_batch_padd % INDEX_MOD) % INDEX_MOD
    if bound > size0 then none
    else
      some (out_temp,
        { predscore := (List.range bound).map out_temp
          labels := GetLabelInfo t.net_cfg batch })

/-- The `metric.AddEval` calls of the loop of `Evaluate`, one per batch; the member
`out_temp` is carried from one batch to the next. -/
def Evaluate_loop {α : Type} (Resize : (Nat → List α) → Nat → Nat → List α)
    (act : DataBatch α → Nat → Nat → List α)
    (t : CXXNetThreadTrainer) : (Nat → List α) → List (DataBatch α) →
    Option (List (AddEvalCall α))
  | _, [] => some []
  | out_temp, batch :: rest =>
    match Evaluate_batch Resize act t out_temp batch with
    | none => none
    | some (out_temp, call) =>
      match Evaluate_loop Resize act t out_temp rest with
      | none => none
      | some calls => some (call :: calls)

/-- The method `Evaluate(iter_eval, data_name)` (lines 201-218): what is fed to the
evaluation accumulator `metric` after `metric.Clear()`; nothing when `iter_eval == NULL`.
`out_temp` gives the rows the buffer holds when the call starts. -/
def Evaluate {α : Type} (Resize : (Nat → List α) → Nat → Nat → List α)
    (act : DataBatch α → Nat → Nat → List α) (t : CXXNetThreadTrainer)
    (out_temp : Nat → List α) (iter_eval : Option (List (DataBatch α))) :
    Option (List (AddEvalCall α)) :=
  match iter_eval with
  | none => some []
  | some batches => Evaluate_loop Resize act t out_temp batches

/-! ## Sequences of calls -/

/-- A call of one of the configuration and initialization methods of the trainer. -/
inductive Call where
  | SetParam (name val : String)
  | InitModel
  | LoadModel (fi : List Nat)
  | CopyModelFrom (fi : List Nat)
  deriving DecidableEq

/-- Whether the call sets the `param_server` option. -/
def Call.setsParamServer : Call → Bool
  | .SetParam name _ => decide (name = "param_server")
  | _ => false

/-- Run one call. -/
def runCall (c : Collaborators) (t : CXXNetThreadTrainer) : Call → Option CXXNetThreadTrainer
  | .SetParam name val => SetParam t name val
  | .InitModel => InitModel c t
  | .LoadModel fi => LoadModel c t fi
  | .CopyModelFrom fi => (CopyModelFrom c t fi).map Prod.fst

/-- Run a sequence of calls, first to last. -/
def runCalls (c : Collaborators) : CXXNetThreadTrainer → List Call → Option CXXNetThreadTrainer
  | t, [] => some t
  | t, call :: calls =>
    match runCall c t call with
    | none => none
    | some t => runCalls c t calls

/-! ## A small instance of the collaborators, for concrete checks -/

/-- The layer names of the small instance, by code. -/
def smallName : Nat → String
  | 0 => "conv1"
  | 1 => "fc1"
  | 2 => "fc2"
  | _ => ""

/-- The code of a layer name in the small instance. -/
def smallCode (name : String) : Nat :=
  if name = "conv1" then 0 else if name = "fc1" then 1 else if name = "fc2" then 2 else 3

/-- The collaborators of the small instance: a topology is written as its layer count
followed by one code per layer name, `Configure` takes the layer names from the `layer`
options when no topology was loaded, every layer holds one byte of weights, and a net is
saved as the bytes of its layers. -/
def smallCollab : Collaborators :=
  { SaveNet := fun cfg => cfg.layers.length :: cfg.layers.map smallCode
    LoadNet := fun fi =>
      match fi with
      | [] => none
      | n :: rest =>
        if rest.length < n then none
        else some ({ layers := (rest.take n).map smallName, label_range := [(0, 1)] },
          rest.drop n)
    Configure := fun cfg pairs =>
      { layers := if cfg.layers = [] then
          (pairs.filter fun p => p.1 = "layer").map Prod.snd else cfg.layers
        label_range := [(0, 1)] }
    InitWeights := fun cfg seed => cfg.layers.map fun _ => [(seed % 256).toNat]
    NetSave := fun ws => ws.map fun w => w.headD 0
    NetLoad := fun _ blob => blob.map fun b => [b] }

/-- The trainer the small instance reaches from the constructor by the given calls (the
constructor's state when a call fails). -/
def smallTrainer (calls : List Call) : CXXNetThreadTrainer :=
  (runCalls smallCollab CXXNetThreadTrainer.fresh calls).getD CXXNetThreadTrainer.fresh

/-- An evaluation batch of 10 samples, the last 3 of them padding; sample `x` has the
label `x`. -/
def paddedBatch : DataBatch Int :=
  { batch_size := 10, num_batch_padd := 3,
    label := [[0], [1], [2], [3], [4], [5], [6], [7], [8], [9]] }

/-! ## Auxiliary definitions for the proofs about `CopyModelFrom` -/

/-- What the first `m` iterations of the inner loop of `CopyModelFrom` do to the weights
of a single replica. -/
def innerWeights (old_name : String) (data : List Nat) (new_layers : List String) (m : Nat)
    (w : List (List Nat)) : List (List Nat) :=
  (List.range m).foldl
    (fun w j => if old_name = new_layers.getD j "" ∧ old_name ≠ "" then w.set j data else w) w

/-- What the first `n` iterations of the outer loop of `CopyModelFrom` do to the weights
of a single replica. -/
def outerWeights (old_layers : List String) (old_weights : List (List Nat))
    (new_layers : List String) (n : Nat) (w : List (List Nat)) : List (List Nat) :=
  (List.range n).foldl
    (fun w i => innerWeights (old_layers.getD i "") (old_weights.getD i []) new_layers
      new_layers.length w) w

/-- The trainer of the small instance whose model is saved in the check of the
round trip: two layers on two devices, seed 3, epoch counter 5. -/
def savedTrainer : CXXNetThreadTrainer :=
  { smallTrainer [Call.SetParam "layer" "conv1", Call.SetParam "layer" "fc2",
      Call.SetParam "dev" "gpu:0-1", Call.SetParam "seed" "3", Call.InitModel] with
    epoch_counter := 5 }

/-- The trainer of the small instance that copies a model in the check of
`CopyModelFrom`: the new topology has the layers `conv1` and `fc2`, the seed is 7. -/
def copyTarget : CXXNetThreadTrainer :=
  smallTrainer [Call.SetParam "layer" "conv1", Call.SetParam "layer" "fc2",
    Call.SetParam "seed" "7"]

/-- A persisted model of the small instance with the old layers `conv1` (weights `[11]`)
and `fc1` (weights `[12]`) and epoch counter 5. -/
def oldModelStream : List Nat :=
  [2, 0, 1] ++ writeLong 5 ++ writeString [11, 12]

/-- A persisted model of the small instance: the layers `conv1` and `fc2`, epoch
counter 0, and the weight blob `[0, 0]`. -/
def savedStream : List Nat :=
  [2, 0, 2] ++ writeLong 0 ++ writeString [0, 0]

/-- A sequence of calls that never sets `param_server`: a model is initialized on one
device, then two devices are configured and a saved model is loaded. -/
def reinitCalls : List Call :=
  [Call.SetParam "layer" "conv1", Call.SetParam "layer" "fc2", Call.SetParam "dev" "gpu:0",
    Call.InitModel, Call.SetParam "dev" "gpu:0-1", Call.LoadModel savedStream]

/-! # Theorems -/

/-! ## Helper lemmas: machine arithmetic -/

theorem ceil_spec (B n : Nat) (hn : 0 < n) :
    B ≤ ((B + n - 1) / n) * n ∧ ((B + n - 1) / n) * n < B + n := by
  have h1 := Nat.div_add_mod (B + n - 1) n
  have h2 := Nat.mod_lt (B + n - 1) hn
  have h3 : n * ((B + n - 1) / n) = ((B + n - 1) / n) * n := Nat.mul_comm _ _
  omega

theorem ceil_le (B n : Nat) (hn : 0 < n) : (B + n - 1) / n ≤ B := by
  have h := (ceil_spec B n hn).2
  by_contra hc
  push_neg at hc
  have : (B + 1) * n ≤ ((B + n - 1) / n) * n := Nat.mul_le_mul_right n hc
  nlinarith

theorem ceil_eq (B n s : Nat) (h1 : s * n < B + n) (h2 : B ≤ s * n) :
    (B + n - 1) / n = s := by
  apply Nat.div_eq_of_lt_le
  · omega
  · have : (s + 1) * n = s * n + n := by ring
    rw [this]; omega

theorem ceil_pos (B n : Nat) (hB : 0 < B) (hn : 0 < n) : 1 ≤ (B + n - 1) / n := by
  have h := (ceil_spec B n hn).1
  by_contra hc
  have h0 : (B + n - 1) / n = 0 := Nat.lt_one_iff.mp (not_le.mp hc)
  rw [h0] at h
  omega

theorem stepOf_eq (B n : Nat) (hB : B < 2 ^ 32) (hn0 : 0 < n) (hn : n < 2 ^ 63) :
    stepOf B n = max ((B + n - 1) / n) 1 := by
  unfold stepOf SIZE_MOD INDEX_MOD
  have h1 : (B + n + (2 ^ 64 - 1)) % 2 ^ 64 = B + n - 1 := by omega
  rw [h1]
  have h2 : (B + n - 1) / n ≤ B := ceil_le B n hn0
  have h3 : max ((B + n - 1) / n) 1 < 2 ^ 32 := by
    rcases Nat.lt_or_ge ((B + n - 1) / n) 1 with h | h
    · rw [max_eq_right h.le]; norm_num
    · rw [max_eq_left h]; omega
  exact Nat.mod_eq_of_lt h3

theorem stepOf_pos_eq (B n : Nat) (hB0 : 0 < B) (hB : B < 2 ^ 32) (hn0 : 0 < n)
    (hn : n < 2 ^ 63) : stepOf B n = (B + n - 1) / n := by
  rw [stepOf_eq B n hB hn0 hn]
  exact max_eq_left (ceil_pos B n hB0 hn0)

/-! ## Helper lemmas: the dispatch loop -/

theorem mem_sliceLoop (step bs : Nat) (r : SliceRange) :
    ∀ k, r ∈ sliceLoop step bs k ↔
      ∃ i, i < k ∧ r = { replica := i
                         begin_ := min ((i * step) % INDEX_MOD) bs
                         end_ := min (((i + 1) * step) % INDEX_MOD) bs }
  | 0 => by simp [sliceLoop]
  | k + 1 => by
    rw [sliceLoop, List.mem_cons, mem_sliceLoop step bs r k]
    constructor
    · rintro (h | ⟨i, hi, h⟩)
      · exact ⟨k, Nat.lt_succ_self k, h⟩
      · exact ⟨i, Nat.lt_succ_of_lt hi, h⟩
    · rintro ⟨i, hi, h⟩
      rcases Nat.lt_succ_iff_lt_or_eq.mp hi with h' | h'
      · exact Or.inr ⟨i, h', h⟩
      · subst h'; exact Or.inl h

theorem sliceLoop_replicas (step bs : Nat) :
    ∀ k, (sliceLoop step bs k).map SliceRange.replica = (List.range k).reverse
  | 0 => by simp [sliceLoop]
  | k + 1 => by
    rw [sliceLoop, List.map_cons, sliceLoop_replicas step bs k, List.range_succ]
    simp

theorem mul_le_fit (i k step : Nat) (hi : i ≤ k) (hfit : k * step < 2 ^ 32) :
    (i * step) % INDEX_MOD = i * step := by
  unfold INDEX_MOD
  apply Nat.mod_eq_of_lt
  exact lt_of_le_of_lt (Nat.mul_le_mul_right step hi) hfit

theorem sliceLoop_countP (step bs x : Nat) :
    ∀ k, k * step < 2 ^ 32 →
      (sliceLoop step bs k).countP (SliceRange.covers x) =
        if x < min (k * step) bs then 1 else 0
  | 0, _ => by simp [sliceLoop]
  | k + 1, hfit => by
    have hk : k * step < 2 ^ 32 :=
      lt_of_le_of_lt (Nat.mul_le_mul_right step (Nat.le_succ k)) hfit
    rw [sliceLoop, List.countP_cons, sliceLoop_countP step bs x k hk]
    rw [mul_le_fit k (k + 1) step (Nat.le_succ k) hfit,
      mul_le_fit (k + 1) (k + 1) step le_rfl hfit]
    have hmono : k * step ≤ (k + 1) * step := Nat.mul_le_mul_right step (Nat.le_succ k)
    simp only [SliceRange.covers, Bool.and_eq_true, decide_eq_true_eq]
    by_cases h1 : x < min (k * step) bs
    · have h2 : x < min ((k + 1) * step) bs := by
        rw [lt_min_iff] at h1 ⊢; omega
      have h3 : ¬ (min (k * step) bs ≤ x ∧ x < min ((k + 1) * step) bs) := by omega
      rw [if_pos h1, if_pos h2, if_neg h3]
    · by_cases h2 : x < min ((k + 1) * step) bs
      · have h3 : min (k * step) bs ≤ x ∧ x < min ((k + 1) * step) bs := by omega
        rw [if_neg h1, if_pos h2, if_pos h3]
      · have h3 : ¬ (min (k * step) bs ≤ x ∧ x < min ((k + 1) * step) bs) := by omega
        rw [if_neg h1, if_neg h2, if_neg h3]

/-! ## Helper lemmas: the shrink loop of `InitNet` -/

theorem shrinkLoop_succ (step B fuel : Nat) (devs : List Int) :
    shrinkLoop step B (fuel + 1) devs =
      if (step * ((devs.length + (SIZE_MOD - 1)) % SIZE_MOD)) % SIZE_MOD ≥ B then
        match devs with
        | [] => none
        | _ :: _ => shrinkLoop step B fuel devs.dropLast
      else some devs := by
  cases devs <;> rfl

theorem shrinkLoop_spec (step B : Nat) (hB : 0 < B) :
    ∀ n (devs : List Int), devs.length = n → 1 ≤ n → step * n < 2 ^ 64 → n < 2 ^ 64 →
      ∃ out : List Int,
        (∀ fuel, n ≤ fuel → shrinkLoop step B fuel devs = some out) ∧
        out <+: devs ∧ 1 ≤ out.length ∧ step * (out.length - 1) < B ∧
        (out.length < n → B ≤ step * out.length) := by
  intro n
  induction n with
  | zero => intro devs _ h1; omega
  | succ m ih =>
    intro devs hlen _ hfit hm
    have hmod : (devs.length + (SIZE_MOD - 1)) % SIZE_MOD = m := by
      unfold SIZE_MOD; omega
    have hle : step * m ≤ step * (m + 1) := Nat.mul_le_mul_left step (Nat.le_succ m)
    have hmod2 : (step * m) % SIZE_MOD = step * m := by
      unfold SIZE_MOD; exact Nat.mod_eq_of_lt (by omega)
    by_cases hc : step * m ≥ B
    · -- the condition holds: one device is dropped
      have hm1 : 1 ≤ m := by
        rcases Nat.eq_zero_or_pos m with h0 | h0
        · subst h0; simp at hc; omega
        · exact h0
      have hdl : devs.dropLast.length = m := by
        rw [List.length_dropLast, hlen]; rfl
      obtain ⟨out, hrun, hpre, hone, hexit, hdrop⟩ :=
        ih devs.dropLast hdl hm1 (by omega) (by omega)
      refine ⟨out, ?_, hpre.trans ( List.dropLast_prefix devs), hone, hexit, ?_⟩
      · intro fuel hfuel
        obtain ⟨f, rfl⟩ : ∃ f, fuel = f + 1 := ⟨fuel - 1, by omega⟩
        rw [shrinkLoop_succ, hmod, hmod2, if_pos hc]
        cases devs with
        | nil => simp at hlen
        | cons d ds => exact hrun f (by omega)
      · intro _
        rcases Nat.lt_or_ge out.length m with h | h
        · exact hdrop h
        · have hout : out.length = m := le_antisymm (hdl ▸ hpre.length_le) h
          rw [hout]; exact hc
    · -- the condition fails: the loop exits
      refine ⟨devs, ?_, List.prefix_rfl, by omega, ?_, by omega⟩
      · intro fuel hfuel
        obtain ⟨f, rfl⟩ : ∃ f, fuel = f + 1 := ⟨fuel - 1, by omega⟩
        rw [shrinkLoop_succ, hmod, hmod2, if_neg hc]
      · rw [hlen]; simpa using hc

theorem sliceLoop_nowrap (step bs : Nat) (r : SliceRange) (k : Nat)
    (hfit : k * step < 2 ^ 32) (hr : r ∈ sliceLoop step bs k) :
    r.replica < k ∧ r.begin_ = min (r.replica * step) bs ∧
      r.end_ = min ((r.replica + 1) * step) bs := by
  obtain ⟨i, hi, rfl⟩ := (mem_sliceLoop step bs r k).mp hr
  refine ⟨hi, ?_, ?_⟩
  · show min ((i * step) % INDEX_MOD) bs = min (i * step) bs
    rw [mul_le_fit i k step hi.le hfit]
  · show min (((i + 1) * step) % INDEX_MOD) bs = min ((i + 1) * step) bs
    rw [mul_le_fit (i + 1) k step hi hfit]

theorem default_devices_length (devices : List Int) (hlen : devices.length < 2 ^ 63) :
    1 ≤ (if devices = [] then [0] else devices).length ∧
      (if devices = [] then [0] else devices).length < 2 ^ 63 := by
  split
  · simp
  · rename_i h; exact ⟨List.length_pos.mpr h, hlen⟩

theorem InitNet_devices_spec (B : Nat) (devices : List Int) (hpos : 0 < B)
    (hB : B < 2 ^ 32) (hlen : devices.length < 2 ^ 63) :
    ∃ out : List Int,
      InitNet_devices B devices =
        some (stepOf B (if devices.length = 0 then devices ++ [0] else devices).length,
          out, out.length) ∧
      (∀ fuel, (if devices.length = 0 then devices ++ [0] else devices).length ≤ fuel →
        shrinkLoop (stepOf B (if devices.length = 0 then devices ++ [0] else devices).length)
          B fuel (if devices.length = 0 then devices ++ [0] else devices) = some out) ∧
      out <+: (if devices.length = 0 then devices ++ [0] else devices) ∧
      1 ≤ out.length ∧
      stepOf B (if devices.length = 0 then devices ++ [0] else devices).length *
        (out.length - 1) < B ∧
      (out.length < (if devices.length = 0 then devices ++ [0] else devices).length →
        B ≤ stepOf B (if devices.length = 0 then devices ++ [0] else devices).length *
          out.length) := by
  generalize hd : (if devices.length = 0 then devices ++ [0] else devices) = devs0
  have hn1 : 1 ≤ devs0.length := by
    rw [← hd]; split
    · simp
    · omega
  have hn2 : devs0.length < 2 ^ 63 := by
    rw [← hd]; split
    · rename_i h0; simp [h0]
    · exact hlen
  have hstep := stepOf_pos_eq B devs0.length hpos hB hn1 hn2
  have hsp := ceil_spec B devs0.length hn1
  have hfit : stepOf B devs0.length * devs0.length < 2 ^ 64 := by
    rw [hstep]; omega
  obtain ⟨out, hrun, hpre, hone, hexit, hdrop⟩ :=
    shrinkLoop_spec (stepOf B devs0.length) B hpos devs0.length devs0 rfl hn1 hfit (by omega)
  refine ⟨out, ?_, hrun, hpre, hone, hexit, hdrop⟩
  unfold InitNet_devices
  simp only [hd]
  rw [hrun (devs0.length + 1) (Nat.le_succ _)]
  have hle := hpre.length_le
  by_cases h : devs0.length > out.length
  · simp [h]
  · have : devs0.length = out.length := by omega
    simp [this]

/-! ## Helper lemmas: initialization -/

theorem InitParamServer_spec (t : CXXNetThreadTrainer) (hps : t.pserver = none)
    (hdev : t.devices_ ≠ []) :
    ∃ (type_pserver : String) (pserver : Option SharedModel),
      InitParamServer t = some { t with type_pserver := type_pserver, pserver := pserver } := by
  have hlen : t.devices_.length ≠ 0 := fun h => hdev (List.length_eq_zero.mp h)
  obtain ⟨ps, tp, ep, sd, up, sc, et, me, tm, bs, dv, mb, ns, nc, cf⟩ := t
  simp only at hps hlen
  subst hps
  by_cases h1 : tp = "UNSPECIFIED"
  · by_cases h2 : dv.length ≤ 1
    · refine ⟨"NONE", none, ?_⟩
      simp [InitParamServer, h1, h2]
    · refine ⟨"local", some { type := "local", params := cf, devices := dv }, ?_⟩
      simp [InitParamServer, h1, h2, hlen]
  · by_cases h3 : tp = "NONE"
    · refine ⟨tp, none, ?_⟩
      simp [InitParamServer, h1, h3]
    · refine ⟨tp, some { type := tp, params := cf, devices := dv }, ?_⟩
      simp [InitParamServer, h1, h3, hlen]

theorem InitNet_spec (c : Collaborators) (t : CXXNetThreadTrainer) (hnets : t.nets_ = [])
    (hps : t.pserver = none) (hpos : 0 < t.batch_size) (hB : t.batch_size < 2 ^ 32)
    (hlen : t.devices_.length < 2 ^ 63) :
    ∃ (step : Nat) (out : List Int) (type_pserver : String) (pserver : Option SharedModel),
      InitNet_devices t.batch_size t.devices_ = some (step, out, out.length) ∧
      1 ≤ out.length ∧
      InitNet c t = some
        { t with
          net_cfg := c.Configure t.net_cfg t.cfg
          devices_ := out
          type_pserver := type_pserver
          pserver := pserver
          nets_ := (List.range out.length).map fun i =>
            NeuralNetThread.create (c.Configure t.net_cfg t.cfg) pserver (out.getD i 0) step
              ((i : Int) + t.seed * 100) } := by
  obtain ⟨out, h1, _, _, h4, _, _⟩ :=
    InitNet_devices_spec t.batch_size t.devices_ hpos hB hlen
  have hout : out ≠ [] := fun h => by rw [h] at h4; simp at h4
  obtain ⟨tp, ps, hinit⟩ := InitParamServer_spec
    { t with net_cfg := c.Configure t.net_cfg t.cfg, devices_ := out } hps hout
  refine ⟨_, out, tp, ps, h1, h4, ?_⟩
  simp only [hnets] at hinit
  unfold InitNet
  rw [hnets]
  simp only [List.length_nil, ne_eq, not_true_eq_false, if_false, h1, hinit]

theorem InitNet_some (c : Collaborators) (t : CXXNetThreadTrainer) (hnets : t.nets_ = [])
    (hps : t.pserver = none) (hpos : 0 < t.batch_size) (hB : t.batch_size < 2 ^ 32)
    (hlen : t.devices_.length < 2 ^ 63) :
    ∃ (devices_ : List Int) (type_pserver : String) (pserver : Option SharedModel)
      (r : NeuralNetThread) (rs : List NeuralNetThread),
      (∀ x ∈ r :: rs, x.cfg = c.Configure t.net_cfg t.cfg ∧ x.pserver = pserver) ∧
      InitNet c t = some
        { t with
          net_cfg := c.Configure t.net_cfg t.cfg
          devices_ := devices_
          type_pserver := type_pserver
          pserver := pserver
          nets_ := r :: rs } := by
  obtain ⟨step, out, tp, ps, _, hout, hinit⟩ := InitNet_spec c t hnets hps hpos hB hlen
  obtain ⟨m, hm⟩ : ∃ m, out.length = m + 1 := ⟨out.length - 1, by omega⟩
  rw [hm, List.range_succ_eq_map, List.map_cons] at hinit
  refine ⟨out, tp, ps, _, _, ?_, hinit⟩
  intro x hx
  rcases List.mem_cons.mp hx with h | h
  · subst h; exact ⟨rfl, rfl⟩
  · obtain ⟨i, _, rfl⟩ := List.mem_map.mp h
    exact ⟨rfl, rfl⟩

/-! ## Helper lemmas: the gather loop of `ForwardTo` -/

theorem gather_sliceLoop {α : Type} (act : Nat → Nat → List α) (step bs x : Nat)
    (hx : x < bs) :
    ∀ (k : Nat), k * step < 2 ^ 32 → ∀ (out : Nat → List α),
      ((sliceLoop step bs k).foldl (fun out r => CopyNodeData act r out) out) x =
        if x < k * step then act (x / step) x else out x := by
  intro k
  induction k with
  | zero => intro _ out; simp [sliceLoop]
  | succ k ih =>
    intro hfit out
    have hmono : k * step ≤ (k + 1) * step := Nat.mul_le_mul_right step (Nat.le_succ k)
    have hk : k * step < 2 ^ 32 := lt_of_le_of_lt hmono hfit
    rw [sliceLoop, List.foldl_cons, ih hk]
    rw [mul_le_fit k (k + 1) step (Nat.le_succ k) hfit,
      mul_le_fit (k + 1) (k + 1) step le_rfl hfit]
    by_cases h1 : x < k * step
    · have h2 : x < (k + 1) * step := by omega
      rw [if_pos h1, if_pos h2]
    · rw [if_neg h1]
      simp only [CopyNodeData, SliceRange.covers, Bool.and_eq_true, decide_eq_true_eq]
      by_cases h2 : x < (k + 1) * step
      · have h3 : min (k * step) bs ≤ x ∧ x < min ((k + 1) * step) bs := by omega
        have h4 : x / step = k := Nat.div_eq_of_lt_le (by omega) h2
        rw [if_pos h3, if_pos h2, h4]
      · have h3 : ¬ (min (k * step) bs ≤ x ∧ x < min ((k + 1) * step) bs) := by omega
        rw [if_neg h3, if_neg h2]

theorem trainer_step_fit (t : CXXNetThreadTrainer) (hnets : t.nets_ ≠ [])
    (hpos : 0 < t.batch_size)
    (hfit : t.nets_.length *
      max ((t.batch_size + t.nets_.length - 1) / t.nets_.length) 1 < 2 ^ 32) :
    stepOf t.batch_size t.nets_.length =
        max ((t.batch_size + t.nets_.length - 1) / t.nets_.length) 1 ∧
      t.nets_.length % INDEX_MOD = t.nets_.length ∧
      t.batch_size ≤
        t.nets_.length * max ((t.batch_size + t.nets_.length - 1) / t.nets_.length) 1 := by
  have hn : 0 < t.nets_.length := List.length_pos.mpr hnets
  have hsp := ceil_spec t.batch_size t.nets_.length hn
  have hmax : max ((t.batch_size + t.nets_.length - 1) / t.nets_.length) 1 =
      (t.batch_size + t.nets_.length - 1) / t.nets_.length :=
    max_eq_left (ceil_pos t.batch_size t.nets_.length hpos hn)
  rw [hmax] at hfit ⊢
  have hprod0 : (t.batch_size + t.nets_.length - 1) / t.nets_.length * t.nets_.length <
      2 ^ 32 := by
    rw [Nat.mul_comm]; exact hfit
  have hn32 : t.nets_.length < 2 ^ 32 := by
    have h1 := ceil_pos t.batch_size t.nets_.length hpos hn
    have h2 : t.nets_.length * 1 ≤
        t.nets_.length * ((t.batch_size + t.nets_.length - 1) / t.nets_.length) :=
      Nat.mul_le_mul_left _ h1
    omega
  refine ⟨?_, ?_, ?_⟩
  · rw [stepOf_eq t.batch_size t.nets_.length (by omega) hn (by omega), hmax]
  · unfold INDEX_MOD; exact Nat.mod_eq_of_lt hn32
  · rw [Nat.mul_comm]; exact hsp.1

theorem ForwardTo_spec {α : Type} (Resize : (Nat → List α) → Nat → Nat → List α)
    (act : Nat → Nat → List α) (t : CXXNetThreadTrainer) (n : Nat)
    (out_data : Nat → List α)
    (hnets : t.nets_ ≠ []) (hdev : t.devices_.length = t.nets_.length)
    (hpos : 0 < t.batch_size)
    (hfit : t.nets_.length *
      max ((t.batch_size + t.nets_.length - 1) / t.nets_.length) 1 < 2 ^ 32)
    (hcap : n ≤ t.batch_size) :
    ∃ out, ForwardTo Resize act t n out_data = some out ∧
      ∀ x, x < n →
        out x = act (x / max ((t.batch_size + t.nets_.length - 1) / t.nets_.length) 1) x := by
  obtain ⟨hstep, hmod, hcover⟩ := trainer_step_fit t hnets hpos hfit
  have hn : t.nets_.length ≠ 0 := fun h => hnets (List.length_eq_zero.mp h)
  have h1 : ¬ (t.nets_.length = 0 ∨ t.devices_.length = 0) := by
    rw [hdev]; tauto
  have hranges : dispatchRanges t.batch_size t.devices_.length t.nets_.length n =
      sliceLoop (max ((t.batch_size + t.nets_.length - 1) / t.nets_.length) 1)
        n t.nets_.length := by
    unfold dispatchRanges
    rw [hdev, hstep, hmod]
  have hany : ¬ ((sliceLoop (max ((t.batch_size + t.nets_.length - 1) / t.nets_.length) 1)
      n t.nets_.length).any (fun r => decide (r.end_ < r.begin_)) = true) := by
    rw [List.any_eq_true]
    rintro ⟨r, hr, hlt⟩
    obtain ⟨_, hb, he⟩ := sliceLoop_nowrap _ _ r _ hfit hr
    have hmono : r.replica * max ((t.batch_size + t.nets_.length - 1) / t.nets_.length) 1 ≤
        (r.replica + 1) * max ((t.batch_size + t.nets_.length - 1) / t.nets_.length) 1 :=
      Nat.mul_le_mul_right _ (Nat.le_succ _)
    have hlt2 : r.end_ < r.begin_ := by simpa using hlt
    omega
  refine ⟨(sliceLoop (max ((t.batch_size + t.nets_.length - 1) / t.nets_.length) 1)
      n t.nets_.length).foldl
      (fun out r => CopyNodeData act r out) (Resize out_data n), ?_, ?_⟩
  · unfold ForwardTo
    rw [if_neg h1, hranges, if_neg hany]
  · intro x hx
    rw [gather_sliceLoop act _ n x hx t.nets_.length hfit (Resize out_data n)]
    rw [if_pos (by omega)]

/-! ## C1: partition coverage -/

/-- C1 as stated fails: with a configured batch size of 4 on 2 devices the step is 2, and
a batch of 10 samples is cut into `[0, 2)` and `[2, 4)`; sample 5 lies in no range (the
trainer configured by `batch_size = 4` and `dev = gpu:0-1` dispatches exactly these).  It
also fails when an `index_t` value wraps: with `2^32` devices the loop variable starts at
`(index_t) 2^32 = 0` and no range is computed at all. -/
theorem partition_coverage_counterexample :
    (dispatchRanges 4 2 2 10 =
        [{ replica := 1, begin_ := 2, end_ := 4 }, { replica := 0, begin_ := 0, end_ := 2 }] ∧
      ¬ (∀ x, x < 10 → (dispatchRanges 4 2 2 10).countP (SliceRange.covers x) = 1) ∧
      (Update (smallTrainer [Call.SetParam "batch_size" "4", Call.SetParam "dev" "gpu:0-1",
          Call.InitModel]) 10).map (fun res => res.jobs.map TrainJob.range) =
        some (dispatchRanges 4 2 2 10)) ∧
    (dispatchRanges 100 (2 ^ 32) (2 ^ 32) 10 = [] ∧
      ¬ (∀ x, x < 10 →
        (dispatchRanges 100 (2 ^ 32) (2 ^ 32) 10).countP (SliceRange.covers x) = 1)) := by
  refine ⟨⟨by decide, fun h => ?_, by decide⟩, ⟨by decide, fun h => ?_⟩⟩
  · have h5 := h 5 (by decide)
    revert h5
    decide
  · have h0 := h 0 (by decide)
    revert h0
    decide

/-- C1 (amended): for every `batch_size` and positive `device_count` and
`configured_batch_size` with `batch_size ≤ configured_batch_size` and
`device_count * step < 2^32`, where `step = max(ceil(configured_batch_size /
device_count), 1)`, the ranges computed by `Update` and `ForwardTo` are
`[min(i*step, batch_size), min((i+1)*step, batch_size))` for the replicas
`i < device_count`, every index of `[0, batch_size)` lies in exactly one of them, and
every range ends at or before `batch_size`. -/
theorem partition_coverage (batch_size device_count configured_batch_size : Nat)
    (hd : 0 < device_count) (hc : 0 < configured_batch_size)
    (hle : batch_size ≤ configured_batch_size)
    (hfit : device_count *
      max ((configured_batch_size + device_count - 1) / device_count) 1 < 2 ^ 32) :
    (∀ r ∈ dispatchRanges configured_batch_size device_count device_count batch_size,
      r.replica < device_count ∧
      r.begin_ = min (r.replica *
        max ((configured_batch_size + device_count - 1) / device_count) 1) batch_size ∧
      r.end_ = min ((r.replica + 1) *
        max ((configured_batch_size + device_count - 1) / device_count) 1) batch_size ∧
      r.end_ ≤ batch_size) ∧
    (∀ x, x < batch_size →
      (dispatchRanges configured_batch_size device_count device_count batch_size).countP
        (SliceRange.covers x) = 1) := by
  have hsp := ceil_spec configured_batch_size device_count hd
  have hmax : max ((configured_batch_size + device_count - 1) / device_count) 1 =
      (configured_batch_size + device_count - 1) / device_count :=
    max_eq_left (ceil_pos configured_batch_size device_count hc hd)
  rw [hmax] at hfit
  have hprod0 : (configured_batch_size + device_count - 1) / device_count * device_count <
      2 ^ 32 := by
    rw [Nat.mul_comm]; exact hfit
  have hn32 : device_count < 2 ^ 32 := by
    have h1 := ceil_pos configured_batch_size device_count hc hd
    have h2 : device_count * 1 ≤
        device_count * ((configured_batch_size + device_count - 1) / device_count) :=
      Nat.mul_le_mul_left _ h1
    omega
  have hstep := stepOf_eq configured_batch_size device_count (by omega) hd (by omega)
  have hn : device_count % INDEX_MOD = device_count := by
    unfold INDEX_MOD; exact Nat.mod_eq_of_lt hn32
  have hprod : device_count * stepOf configured_batch_size device_count < 2 ^ 32 := by
    rw [hstep, hmax]; exact hfit
  unfold dispatchRanges
  rw [hn]
  constructor
  · intro r hr
    obtain ⟨h1, h2, h3⟩ := sliceLoop_nowrap _ _ r device_count hprod hr
    rw [hstep] at h2 h3
    exact ⟨h1, h2, h3, h3 ▸ Nat.min_le_right _ _⟩
  · intro x hx
    rw [sliceLoop_countP _ _ x device_count hprod, hstep, hmax, Nat.mul_comm]
    have : x < min ((configured_batch_size + device_count - 1) / device_count * device_count)
        batch_size := by
      rw [lt_min_iff]; omega
    rw [if_pos this]

/-- A check of C1 (amended) on a batch of 10 samples, configured batch size 10, 3 devices. -/
theorem partition_coverage_witness :
    dispatchRanges 10 3 3 10 =
      [{ replica := 2, begin_ := 8, end_ := 10 }, { replica := 1, begin_ := 4, end_ := 8 },
        { replica := 0, begin_ := 0, end_ := 4 }] ∧
    (∀ x, x < 10 → (dispatchRanges 10 3 3 10).countP (SliceRange.covers x) = 1) :=
  ⟨by decide,
    (partition_coverage 10 3 10 (by decide) (by decide) (by decide) (by decide)).2⟩

/-! ## C8: the slice ranges form a chain -/

/-- C8 as stated fails: `i * step` is an `index_t` product.  With `step = 2^31` and two
replicas the product `2 * step` wraps to 0, and on a batch of 5 samples replica 1 is
handed `begin = 5`, `end = 0`.  The trainer reaches this through
`SetParam("batch_size", "-1")`, which stores `(index_t) -1 = 2^32 - 1`, two devices and
`InitModel()`. -/
theorem slice_chain_counterexample :
    sliceLoop (2 ^ 31) 5 2 =
      [{ replica := 1, begin_ := 5, end_ := 0 }, { replica := 0, begin_ := 0, end_ := 5 }] ∧
    ¬ (∀ r ∈ sliceLoop (2 ^ 31) 5 2, r.begin_ ≤ r.end_) ∧
    dispatchRanges (2 ^ 32 - 1) 2 2 5 = sliceLoop (2 ^ 31) 5 2 ∧
    (Update (smallTrainer [Call.SetParam "batch_size" "-1", Call.SetParam "dev" "gpu:0-1",
        Call.InitModel]) 5).map (fun res => res.jobs.map TrainJob.range) =
      some (sliceLoop (2 ^ 31) 5 2) := by
  refine ⟨by decide, by decide, by decide, by decide⟩

/-- C8 (amended): for every `batch_size`, `step` and replica count `n` with
`n * step < 2^32`, the loop of `Update` and `ForwardTo` visits the replicas
`n-1, …, 0`, and the ranges form a chain: `begin_0 = 0`,
`begin_i = min(i*step, batch_size) ≤ end_i = min((i+1)*step, batch_size) ≤ batch_size`,
and `end_i = begin_(i+1)`. -/
theorem slice_chain (batch_size step n : Nat) (hfit : n * step < 2 ^ 32) :
    (sliceLoop step batch_size n).map SliceRange.replica = (List.range n).reverse ∧
    ∀ r ∈ sliceLoop step batch_size n,
      (r.replica = 0 → r.begin_ = 0) ∧
      r.begin_ = min (r.replica * step) batch_size ∧
      r.end_ = min ((r.replica + 1) * step) batch_size ∧
      r.begin_ ≤ r.end_ ∧ r.end_ ≤ batch_size ∧
      ∀ r2 ∈ sliceLoop step batch_size n, r2.replica = r.replica + 1 → r2.begin_ = r.end_ := by
  refine ⟨sliceLoop_replicas step batch_size n, ?_⟩
  intro r hr
  obtain ⟨_, h2, h3⟩ := sliceLoop_nowrap step batch_size r n hfit hr
  have hmono : r.replica * step ≤ (r.replica + 1) * step :=
    Nat.mul_le_mul_right step (Nat.le_succ _)
  refine ⟨?_, h2, h3, ?_, ?_, ?_⟩
  · intro h0; rw [h2, h0]; simp
  · rw [h2, h3]; exact min_le_min_right _ hmono
  · rw [h3]; exact Nat.min_le_right _ _
  · intro r2 hr2 heq
    obtain ⟨_, h4, _⟩ := sliceLoop_nowrap step batch_size r2 n hfit hr2
    rw [h4, h3, heq]

/-- A check of C8 (amended): 3 replicas with step 4 on a batch of 10 samples. -/
theorem slice_chain_witness :
    (sliceLoop 4 10 3).map SliceRange.replica = (List.range 3).reverse ∧
    ∀ r ∈ sliceLoop 4 10 3,
      (r.replica = 0 → r.begin_ = 0) ∧
      r.begin_ = min (r.replica * 4) 10 ∧
      r.end_ = min ((r.replica + 1) * 4) 10 ∧
      r.begin_ ≤ r.end_ ∧ r.end_ ≤ 10 ∧
      ∀ r2 ∈ sliceLoop 4 10 3, r2.replica = r.replica + 1 → r2.begin_ = r.end_ :=
  slice_chain 10 4 3 (by decide)

/-! ## C3: the shrink loop of `InitNet` -/

/-- C3: for every positive configured `batch_size` (an `index_t`) and every device list
(an empty list defaults to `[0]`), with `step = max(ceil(batch_size / n0), 1)` computed
once from the initial device count `n0`, the shrink loop of `InitNet` terminates (it
returns the same list for every fuel of at least `n0` iterations), its result is a
prefix of the initial list (devices are removed from the end only), at least one device
is left, and on exit `step * (device_count - 1) < batch_size`. -/
theorem initnet_shrink (batch_size : Nat) (devices : List Int) (hpos : 0 < batch_size)
    (hB : batch_size < 2 ^ 32) (hlen : devices.length < 2 ^ 63) :
    ∃ (step : Nat) (out : List Int),
      step = max ((batch_size + (if devices = [] then [0] else devices).length - 1) /
        (if devices = [] then [0] else devices).length) 1 ∧
      InitNet_devices batch_size devices = some (step, out, out.length) ∧
      (∀ fuel, (if devices = [] then [0] else devices).length ≤ fuel →
        shrinkLoop step batch_size fuel (if devices = [] then [0] else devices) = some out) ∧
      out <+: (if devices = [] then [0] else devices) ∧
      1 ≤ out.length ∧
      step * (out.length - 1) < batch_size := by
  have hd : (if devices.length = 0 then devices ++ [0] else devices) =
      (if devices = [] then [0] else devices) := by
    cases devices <;> simp
  obtain ⟨out, h1, h2, h3, h4, h5, _⟩ := InitNet_devices_spec batch_size devices hpos hB hlen
  rw [hd] at h1 h2 h3 h5
  have hn1 : 1 ≤ (if devices = [] then [0] else devices).length := by
    split
    · simp
    · rename_i h; exact List.length_pos.mpr h
  have hn2 : (if devices = [] then [0] else devices).length < 2 ^ 63 := by
    split
    · simp
    · exact hlen
  have hs := stepOf_eq batch_size _ hB hn1 hn2
  refine ⟨_, out, hs, h1, h2, h3, h4, h5⟩

/-- A check of C3: a batch size of 10 on the 7 devices `0..6` gives step 2 and keeps the
first 5 devices. -/
theorem initnet_shrink_witness :
    InitNet_devices 10 [0, 1, 2, 3, 4, 5, 6] = some (2, [0, 1, 2, 3, 4], 5) ∧
    ∃ (step : Nat) (out : List Int),
      InitNet_devices 10 [0, 1, 2, 3, 4, 5, 6] = some (step, out, out.length) ∧
      out <+: [0, 1, 2, 3, 4, 5, 6] ∧
      1 ≤ out.length ∧
      step * (out.length - 1) < 10 := by
  obtain ⟨step, out, _, h2, _, h4, h5, h6⟩ :=
    initnet_shrink 10 [0, 1, 2, 3, 4, 5, 6] (by decide) (by decide) (by decide)
  exact ⟨by decide, step, out, h2, by simpa using h4, h5, h6⟩

/-! ## C10: the step recomputed after shrinking -/

/-- C10 as stated fails in its last part: `batch_size` is an `index_t`, and for the
positive value `B = 2^32 - 1` on two devices `InitNet` computes the step `2^31`, keeps
both devices and constructs both replicas with that step; the recomputed step is `2^31`
as well, but the `index_t` product `2 * step` wraps to 0, so on a batch of 5 samples
replica 1 is handed `begin = 5`, `end = 0`: not a slice of at most `step` samples (its
`index_t` length `end - begin` is `2^32 - 5`).  The trainer holds this batch size after
`SetParam("batch_size", "-1")`, which stores `(index_t) -1`. -/
theorem step_stable_counterexample :
    InitNet_devices (2 ^ 32 - 1) [0, 1] = some (2 ^ 31, [0, 1], 2) ∧
    stepOf (2 ^ 32 - 1) 2 = 2 ^ 31 ∧
    dispatchRanges (2 ^ 32 - 1) 2 2 5 =
      [{ replica := 1, begin_ := 5, end_ := 0 }, { replica := 0, begin_ := 0, end_ := 5 }] ∧
    ¬ (∀ r ∈ dispatchRanges (2 ^ 32 - 1) 2 2 5,
        r.begin_ ≤ r.end_ ∧ r.end_ - r.begin_ ≤ 2 ^ 31) ∧
    2 ^ 31 < (0 + INDEX_MOD - 5) % INDEX_MOD ∧
    (smallTrainer [Call.SetParam "batch_size" "-1", Call.SetParam "dev" "gpu:0-1",
        Call.InitModel]).batch_size = 2 ^ 32 - 1 ∧
    (smallTrainer [Call.SetParam "batch_size" "-1", Call.SetParam "dev" "gpu:0-1",
        Call.InitModel]).devices_ = [0, 1] ∧
    (smallTrainer [Call.SetParam "batch_size" "-1", Call.SetParam "dev" "gpu:0-1",
        Call.InitModel]).nets_.map NeuralNetThread.batch_size = [2 ^ 31, 2 ^ 31] ∧
    (Update (smallTrainer [Call.SetParam "batch_size" "-1", Call.SetParam "dev" "gpu:0-1",
        Call.InitModel]) 5).map (fun res => res.jobs.map TrainJob.range) =
      some [{ replica := 1, begin_ := 5, end_ := 0 },
        { replica := 0, begin_ := 0, end_ := 5 }] := by
  refine ⟨by decide, by decide, by decide, by decide, by decide, by decide, by decide,
    by decide, by decide⟩

/-- C10 (amended): for every positive configured batch size `B` (an `index_t`, so
`B < 2^32`) and every initial device list, `InitNet` leaves `n ≥ 1` devices, and the
step `Update` and `ForwardTo` recompute from the shrunk count, `max(ceil(B/n), 1)`,
equals the step `max(ceil(B/n0), 1)` that `InitNet` computed before shrinking and passed
to each of the `n` replicas it constructs.  When `n * step < 2^32` (no `index_t` product
wraps), which holds for every `B ≤ 2^31`, every slice dispatched for every batch has
`begin ≤ end` and at most `step` samples. -/
theorem step_stable (B : Nat) (devices : List Int) (hpos : 0 < B) (hB : B < 2 ^ 32)
    (hlen : devices.length < 2 ^ 63) :
    ∃ (step : Nat) (out : List Int),
      InitNet_devices B devices = some (step, out, out.length) ∧
      1 ≤ out.length ∧
      step = max ((B + (if devices = [] then [0] else devices).length - 1) /
        (if devices = [] then [0] else devices).length) 1 ∧
      max ((B + out.length - 1) / out.length) 1 = step ∧
      stepOf B out.length = step ∧
      (∀ (c : Collaborators) (t : CXXNetThreadTrainer),
        t.batch_size = B → t.devices_ = devices → t.nets_ = [] → t.pserver = none →
        ∃ t2, InitNet c t = some t2 ∧ t2.batch_size = B ∧ t2.devices_ = out ∧
          t2.nets_.length = out.length ∧ ∀ r ∈ t2.nets_, r.batch_size = step) ∧
      (B ≤ 2 ^ 31 → out.length * step < 2 ^ 32) ∧
      (out.length * step < 2 ^ 32 →
        ∀ data_batch_size, ∀ r ∈ dispatchRanges B out.length out.length data_batch_size,
          r.begin_ ≤ r.end_ ∧ r.end_ - r.begin_ ≤ step) := by
  have hd : (if devices.length = 0 then devices ++ [0] else devices) =
      (if devices = [] then [0] else devices) := by
    cases devices <;> simp
  obtain ⟨out, h1, _, h3, h4, h5, h6⟩ :=
    InitNet_devices_spec B devices hpos hB hlen
  rw [hd] at h1 h3 h5 h6
  obtain ⟨hn0, hn2⟩ := default_devices_length devices hlen
  generalize (if devices = [] then [0] else devices) = devs0 at h1 h3 h5 h6 hn0 hn2
  have hle := h3.length_le
  have hs0 := stepOf_pos_eq B devs0.length hpos hB hn0 hn2
  have hsp := ceil_spec B devs0.length hn0
  have hsle := ceil_le B devs0.length hn0
  have hspos := ceil_pos B devs0.length hpos hn0
  have hmax0 : max ((B + devs0.length - 1) / devs0.length) 1 =
      (B + devs0.length - 1) / devs0.length := max_eq_left hspos
  rw [hs0] at h1 h5 h6
  generalize hs : (B + devs0.length - 1) / devs0.length = s at h1 h5 h6 hsp hsle hspos hmax0
  -- the step recomputed from the shrunk count
  have hceil : (B + out.length - 1) / out.length = s := by
    rcases Nat.lt_or_ge out.length devs0.length with hlt | hge
    · have hBle := h6 hlt
      have hsn : s ≤ out.length := by
        by_contra hcon
        push_neg at hcon
        obtain ⟨t, rfl⟩ : ∃ t, s = t + 1 := ⟨s - 1, by omega⟩
        have e1 : t * devs0.length < B := by nlinarith [hsp.2]
        have e2 : t * (out.length + 1) ≤ t * devs0.length := Nat.mul_le_mul_left t hlt
        have e3 : out.length * out.length ≤ t * out.length :=
          Nat.mul_le_mul_right _ (by omega)
        nlinarith
      apply ceil_eq
      · obtain ⟨m, hm⟩ : ∃ m, out.length = m + 1 := ⟨out.length - 1, by omega⟩
        rw [hm] at h5 hsn ⊢
        simp only [Nat.add_sub_cancel] at h5
        have : s * (m + 1) = s * m + s := by ring
        omega
      · exact hBle
    · have : out.length = devs0.length := by omega
      rw [this]; exact hs
  have hmax : max ((B + out.length - 1) / out.length) 1 = s := by
    rw [hceil]; exact max_eq_left hspos
  have hstep : stepOf B out.length = s := by
    rw [stepOf_eq B out.length hB h4 (by omega), hmax]
  refine ⟨s, out, h1, h4, hmax0.symm, hmax, hstep, ?_, ?_, ?_⟩
  · intro c t hbs hdevs hnets hps
    subst hbs hdevs
    obtain ⟨step2, out2, tp, ps, hdev2, _, hinit⟩ :=
      InitNet_spec c t hnets hps hpos hB hlen
    rw [h1] at hdev2
    simp only [Option.some.injEq, Prod.mk.injEq] at hdev2
    obtain ⟨hs2, ho2, _⟩ := hdev2
    subst hs2 ho2
    refine ⟨_, hinit, rfl, rfl, by simp, ?_⟩
    intro r hr
    obtain ⟨i, _, rfl⟩ := List.mem_map.mp hr
    rfl
  · intro hB31
    obtain ⟨m, hm⟩ : ∃ m, out.length = m + 1 := ⟨out.length - 1, by omega⟩
    rw [hm] at h5 ⊢
    simp only [Nat.add_sub_cancel] at h5
    have : (m + 1) * s = s * m + s := by ring
    omega
  · intro hprod bs r hr
    have hnmod : out.length % INDEX_MOD = out.length := by
      unfold INDEX_MOD
      apply Nat.mod_eq_of_lt
      have : out.length * 1 ≤ out.length * s := Nat.mul_le_mul_left _ hspos
      omega
    unfold dispatchRanges at hr
    rw [hnmod, hstep] at hr
    obtain ⟨_, hb, he⟩ := sliceLoop_nowrap s bs r out.length hprod hr
    have : (r.replica + 1) * s = r.replica * s + s := by ring
    rw [hb, he, this]
    omega

/-- A check of C10 (amended): a batch size of 10 on the 7 devices `0..6`: the step is 2
before shrinking to 5 devices and when recomputed from them. -/
theorem step_stable_witness :
    InitNet_devices 10 [0, 1, 2, 3, 4, 5, 6] = some (2, [0, 1, 2, 3, 4], 5) ∧
    stepOf 10 7 = 2 ∧ stepOf 10 5 = 2 ∧
    ∃ (step : Nat) (out : List Int),
      InitNet_devices 10 [0, 1, 2, 3, 4, 5, 6] = some (step, out, out.length) ∧
      1 ≤ out.length ∧
      max ((10 + out.length - 1) / out.length) 1 = step ∧
      out.length * step < 2 ^ 32 ∧
      ∀ data_batch_size, ∀ r ∈ dispatchRanges 10 out.length out.length data_batch_size,
        r.begin_ ≤ r.end_ ∧ r.end_ - r.begin_ ≤ step := by
  obtain ⟨step, out, h1, h2, _, h4, _, _, h6, h7⟩ :=
    step_stable 10 [0, 1, 2, 3, 4, 5, 6] (by decide) (by decide) (by decide)
  exact ⟨by decide, by decide, by decide, step, out, h1, h2, h4, h6 (by decide),
    h7 (h6 (by decide))⟩

/-! ## C2: the update-period cycle -/

theorem Update_spec (t : CXXNetThreadTrainer) (b P c : Nat) (hdev : t.devices_.length ≠ 0)
    (hP : t.update_period = (P : Int)) (hc : t.sample_counter = (c : Int)) (hlt : c < P) :
    ∃ res, Update t b = some res ∧
      res.need_sync = decide (c = 0) ∧ res.need_update = decide (c + 1 = P) ∧
      res.trainer.devices_ = t.devices_ ∧ res.trainer.update_period = (P : Int) ∧
      res.trainer.sample_counter = (((c + 1) % P : Nat) : Int) ∧
      res.trainer.epoch_counter = t.epoch_counter + (((c + 1) / P : Nat) : Int) := by
  have hP0 : (P : Int) ≠ 0 := by omega
  have h1 : Int.tmod (c : Int) (P : Int) = c :=
    Int.tmod_eq_of_lt (by omega) (by omega)
  have hcond : ¬ (t.devices_.length = 0 ∨ t.update_period = 0) := by
    rw [hP]; tauto
  unfold Update
  rw [if_neg hcond]
  refine ⟨_, rfl, ?_, ?_, ?_, ?_, ?_, ?_⟩
  · simp only [hP, hc, h1]
    by_cases h0 : c = 0
    · simp [h0]
    · have : ¬ ((c : Int) = 0) := by omega
      simp [h0, this]
  · simp only [hP, hc]
    by_cases hcp : c + 1 = P
    · have h2 : ((c : Int) + 1) = (P : Int) := by omega
      rw [h2, Int.tmod_self]; simp [hcp]
    · have h2 : Int.tmod ((c : Int) + 1) (P : Int) = (c : Int) + 1 :=
        Int.tmod_eq_of_lt (by omega) (by omega)
      rw [h2]
      have : ¬ ((c : Int) + 1 = 0) := by omega
      simp [hcp, this]
  · simp only [hP, hc]; split <;> rfl
  · simp only [hP, hc]; split <;> rfl
  · simp only [hP, hc]
    by_cases hcp : c + 1 = P
    · have h2 : (c : Int) + 1 ≥ (P : Int) := by omega
      rw [if_pos h2, hcp, Nat.mod_self]; rfl
    · have h2 : ¬ ((c : Int) + 1 ≥ (P : Int)) := by omega
      rw [if_neg h2, Nat.mod_eq_of_lt (by omega)]
      show (c : Int) + 1 = ((c + 1 : Nat) : Int)
      omega
  · simp only [hP, hc]
    by_cases hcp : c + 1 = P
    · have h2 : (c : Int) + 1 ≥ (P : Int) := by omega
      rw [if_pos h2, hcp, Nat.div_self (by omega)]; rfl
    · have h2 : ¬ ((c : Int) + 1 ≥ (P : Int)) := by omega
      rw [if_neg h2, Nat.div_eq_of_lt (by omega)]
      show t.epoch_counter = t.epoch_counter + ((0 : Nat) : Int)
      omega

theorem runUpdates_spec (P : Nat) :
    ∀ (batches : List Nat) (t : CXXNetThreadTrainer) (c : Nat),
      t.devices_.length ≠ 0 → t.update_period = (P : Int) → t.sample_counter = (c : Int) →
      c < P →
      ∃ t2, runUpdates t batches =
          some ((List.range batches.length).map
            (fun k => (decide ((c + k) % P = 0), decide ((c + k + 1) % P = 0))), t2) ∧
        t2.sample_counter = (((c + batches.length) % P : Nat) : Int) ∧
        t2.epoch_counter = t.epoch_counter + (((c + batches.length) / P : Nat) : Int) := by
  intro batches
  induction batches with
  | nil =>
    intro t c _ _ hc hlt
    refine ⟨t, rfl, ?_, ?_⟩
    · simp [hc, Nat.mod_eq_of_lt hlt]
    · simp [Nat.div_eq_of_lt hlt]
  | cons b bs ih =>
    intro t c hdev hP hc hlt
    obtain ⟨res, hres, hs, hu, hd, hp, hsc, hep⟩ := Update_spec t b P c hdev hP hc hlt
    have hP0 : 0 < P := by omega
    obtain ⟨t2, hrun, hsc2, hep2⟩ :=
      ih res.trainer ((c + 1) % P) (by rw [hd]; exact hdev) hp hsc (Nat.mod_lt _ hP0)
    refine ⟨t2, ?_, ?_, ?_⟩
    · rw [runUpdates, hres]
      simp only [hrun]
      have hhead : (res.need_sync, res.need_update) =
          (decide ((c + 0) % P = 0), decide ((c + 0 + 1) % P = 0)) := by
        rw [hs, hu]
        refine Prod.ext ?_ ?_
        · show decide (c = 0) = decide ((c + 0) % P = 0)
          rw [decide_eq_decide, Nat.add_zero, Nat.mod_eq_of_lt hlt]
        · show decide (c + 1 = P) = decide ((c + 0 + 1) % P = 0)
          rw [decide_eq_decide, Nat.add_zero]
          constructor
          · intro h; rw [h, Nat.mod_self]
          · intro h
            by_contra hne
            rw [Nat.mod_eq_of_lt (by omega)] at h
            omega
      have htail : (List.range bs.length).map
            (fun k => (decide (((c + 1) % P + k) % P = 0),
              decide (((c + 1) % P + k + 1) % P = 0))) =
          (List.range bs.length).map
            (fun k => (decide ((c + (k + 1)) % P = 0), decide ((c + (k + 1) + 1) % P = 0))) := by
        apply List.map_congr_left
        intro k _
        have e1 : ((c + 1) % P + k) % P = (c + (k + 1)) % P := by
          rw [Nat.mod_add_mod]; congr 1; omega
        have e2 : ((c + 1) % P + k + 1) % P = (c + (k + 1) + 1) % P := by
          rw [Nat.add_assoc, Nat.mod_add_mod]; congr 1; omega
        simp only [e1, e2]
      rw [hhead, htail, List.length_cons, List.range_succ_eq_map, List.map_cons, List.map_map]
      rfl
    · rw [hsc2]
      congr 1
      simp only [List.length_cons]
      rw [Nat.mod_add_mod]; congr 1; omega
    · rw [hep2, hep, Int.add_assoc]
      congr 1
      simp only [List.length_cons]
      have : ((c + 1) / P + ((c + 1) % P + bs.length) / P) = (c + (bs.length + 1)) / P := by
        by_cases hcp : c + 1 = P
        · have e : c + (bs.length + 1) = bs.length + P := by omega
          rw [e, hcp, Nat.div_self hP0, Nat.mod_self, Nat.zero_add, Nat.add_div_right _ hP0]
          omega
        · have e : c + 1 + bs.length = c + (bs.length + 1) := by omega
          rw [Nat.div_eq_of_lt (by omega), Nat.mod_eq_of_lt (by omega), e]
          omega
      rw [← this]; push_cast; rfl

theorem mod_zero_iff_lt_two_mul (P k : Nat) (hk : k < 2 * P) :
    k % P = 0 ↔ k = 0 ∨ k = P := by
  rcases Nat.lt_or_ge k P with h | h
  · rw [Nat.mod_eq_of_lt h]; omega
  · rw [Nat.mod_eq_sub_mod h, Nat.mod_eq_of_lt (by omega)]; omega

theorem succ_mod_zero_iff_lt_two_mul (P k : Nat) (_hP : 1 ≤ P) (hk : k < 2 * P) :
    (k + 1) % P = 0 ↔ k + 1 = P ∨ k + 1 = 2 * P := by
  rcases Nat.lt_or_ge (k + 1) P with h | h
  · rw [Nat.mod_eq_of_lt h]; omega
  · rw [Nat.mod_eq_sub_mod h]
    rcases Nat.lt_or_ge (k + 1 - P) P with h2 | h2
    · rw [Nat.mod_eq_of_lt h2]; omega
    · have e : k + 1 - P = P := by omega
      rw [e, Nat.mod_self]; omega

/-- C2: for every update period `P ≥ 1`, starting from an initialized trainer with
`sample_counter = 0` (as the constructor leaves it), `2P` consecutive `Update` calls all
return; `need_sync` is true exactly on calls `0` and `P`, `need_update` exactly on calls
`P-1` and `2P-1`; afterwards `epoch_counter` is exactly 2 larger and `sample_counter` is
0 again. -/
theorem update_period_cycle (P : Nat) (t : CXXNetThreadTrainer) (batches : List Nat)
    (hP : 1 ≤ P) (hperiod : t.update_period = (P : Int)) (hcounter : t.sample_counter = 0)
    (hdev : t.devices_ ≠ []) (hlen : batches.length = 2 * P) :
    ∃ flags t2, runUpdates t batches = some (flags, t2) ∧
      flags.length = 2 * P ∧
      (∀ k, k < 2 * P →
        flags[k]? = some (decide (k = 0 ∨ k = P), decide (k = P - 1 ∨ k = 2 * P - 1))) ∧
      t2.epoch_counter = t.epoch_counter + 2 ∧
      t2.sample_counter = 0 := by
  have hdev2 : t.devices_.length ≠ 0 := by
    intro h; exact hdev (List.length_eq_zero.mp h)
  obtain ⟨t2, hrun, hsc, hep⟩ :=
    runUpdates_spec P batches t 0 hdev2 hperiod (by rw [hcounter]; rfl) (by omega)
  refine ⟨_, t2, hrun, ?_, ?_, ?_, ?_⟩
  · simp [hlen]
  · intro k hk
    rw [List.getElem?_map, List.getElem?_range (by omega)]
    simp only [Option.map_some', Nat.zero_add]
    congr 2
    · rw [decide_eq_decide]
      exact mod_zero_iff_lt_two_mul P k hk
    · rw [decide_eq_decide, succ_mod_zero_iff_lt_two_mul P k hP hk]
      omega
  · rw [hep, hlen, Nat.zero_add, Nat.mul_div_left 2 (by omega)]; rfl
  · rw [hsc, hlen, Nat.zero_add, Nat.mul_mod_left]; rfl

/-- A check of C2 with update period 3: six `Update` calls on the trainer the small
instance reaches by `SetParam("update_period", "3")` and `InitModel()`. -/
theorem update_period_cycle_witness :
    ∃ flags t2,
      runUpdates (smallTrainer [Call.SetParam "update_period" "3", Call.InitModel])
        [10, 10, 10, 10, 10, 10] = some (flags, t2) ∧
      flags.length = 2 * 3 ∧
      (∀ k, k < 2 * 3 →
        flags[k]? = some (decide (k = 0 ∨ k = 3), decide (k = 3 - 1 ∨ k = 2 * 3 - 1))) ∧
      t2.epoch_counter =
        (smallTrainer [Call.SetParam "update_period" "3", Call.InitModel]).epoch_counter + 2 ∧
      t2.sample_counter = 0 :=
  update_period_cycle 3 (smallTrainer [Call.SetParam "update_period" "3", Call.InitModel])
    [10, 10, 10, 10, 10, 10] (by decide) (by decide) (by decide) (by decide) (by decide)

/-! ## C6: the collapse of a prediction vector -/

theorem GetMaxIndex_loop_spec {α : Type} [LinearOrder α] (pred : List α) :
    ∀ (fuel i m : Nat), m < i → i ≤ pred.length → pred.length ≤ i + fuel →
      (∀ j, j < i → ∀ (hj : j < pred.length) (hm : m < pred.length), pred[j] ≤ pred[m]) →
      (∀ j, j < m → ∀ (hj : j < pred.length) (hm : m < pred.length), pred[j] < pred[m]) →
      ∃ r, GetMaxIndex_loop pred fuel i m = r ∧ ∃ hr : r < pred.length,
        ∀ j (hj : j < pred.length), pred[j] ≤ pred[r] ∧ (j < r → pred[j] < pred[r]) := by
  intro fuel
  induction fuel with
  | zero =>
    intro i m hmi hi hfuel hle hlt
    have hil : i = pred.length := by omega
    have hml : m < pred.length := by omega
    exact ⟨m, rfl, hml, fun j hj => ⟨hle j (by omega) hj hml, fun hjm => hlt j hjm hj hml⟩⟩
  | succ fuel ih =>
    intro i m hmi hi hfuel hle hlt
    have hml : m < pred.length := by omega
    by_cases hil : i < pred.length
    · have e1 : pred[i]? = some pred[i] := List.getElem?_eq_getElem hil
      have e2 : pred[m]? = some pred[m] := List.getElem?_eq_getElem hml
      by_cases hgt : pred[m] < pred[i]
      · have hstep : GetMaxIndex_loop pred (fuel + 1) i m =
            GetMaxIndex_loop pred fuel (i + 1) i := by
          simp only [GetMaxIndex_loop, if_pos hil, e1, e2, if_pos hgt]
        rw [hstep]
        apply ih (i + 1) i (by omega) (by omega) (by omega)
        · intro j hj hjl _
          rcases Nat.lt_succ_iff_lt_or_eq.mp hj with h | h
          · exact le_of_lt (lt_of_le_of_lt (hle j h hjl hml) hgt)
          · subst h; exact le_rfl
        · intro j hj hjl _
          exact lt_of_le_of_lt (hle j hj hjl hml) hgt
      · have hstep : GetMaxIndex_loop pred (fuel + 1) i m =
            GetMaxIndex_loop pred fuel (i + 1) m := by
          simp only [GetMaxIndex_loop, if_pos hil, e1, e2, if_neg hgt]
        rw [hstep]
        apply ih (i + 1) m (by omega) (by omega) (by omega)
        · intro j hj hjl _
          rcases Nat.lt_succ_iff_lt_or_eq.mp hj with h | h
          · exact hle j h hjl hml
          · subst h; exact not_lt.mp hgt
        · exact hlt
    · have hil2 : i = pred.length := by omega
      have hstep : GetMaxIndex_loop pred (fuel + 1) i m = m := by
        simp only [GetMaxIndex_loop, if_neg hil]
      exact ⟨m, hstep, hml,
        fun j hj => ⟨hle j (by omega) hj hml, fun hjm => hlt j hjm hj hml⟩⟩

/-- C6: `TransformPred` returns the single component of a vector of length 1 unchanged;
for a vector of length greater than 1 (with linearly ordered components) it returns the
index computed by `GetMaxIndex`, converted to the component type, and that index is an
argmax: it is in range, its component is `≥` every component, and `>` every earlier one.
`Predict` applies this collapse to every row of the buffer `ForwardTo` leaves; on an
initialized trainer whose replicas cover the batch these rows are the samples'
activations. -/
theorem transform_pred_collapse {α : Type} [LinearOrder α] (ofIndex : Nat → α) :
    (∀ x : α, TransformPred ofIndex [x] = x) ∧
    (∀ pred : List α, 1 < pred.length →
      TransformPred ofIndex pred = ofIndex (GetMaxIndex pred) ∧
      ∃ h : GetMaxIndex pred < pred.length,
        ∀ j (hj : j < pred.length),
          pred[j] ≤ pred[GetMaxIndex pred] ∧
          (j < GetMaxIndex pred → pred[j] < pred[GetMaxIndex pred])) ∧
    (∀ (Resize : (Nat → List α) → Nat → Nat → List α) (act : Nat → Nat → List α)
      (t : CXXNetThreadTrainer) (n : Nat) (out_temp : Nat → List α),
      Predict ofIndex Resize act t n out_temp =
        (ForwardTo Resize act t n out_temp).map fun out =>
          (List.range n).map fun i => TransformPred ofIndex (out i)) ∧
    (∀ (Resize : (Nat → List α) → Nat → Nat → List α) (act : Nat → Nat → List α)
      (t : CXXNetThreadTrainer) (n : Nat) (out_temp : Nat → List α),
      t.nets_ ≠ [] → t.devices_.length = t.nets_.length → 0 < t.batch_size →
      t.nets_.length *
        max ((t.batch_size + t.nets_.length - 1) / t.nets_.length) 1 < 2 ^ 32 →
      n ≤ t.batch_size →
      Predict ofIndex Resize act t n out_temp =
        some ((List.range n).map fun x => TransformPred ofIndex
          (act (x / max ((t.batch_size + t.nets_.length - 1) / t.nets_.length) 1) x))) := by
  refine ⟨?_, ?_, ?_, ?_⟩
  · intro x
    simp [TransformPred]
  · intro pred hlen
    have hne : pred.length ≠ 1 := by omega
    refine ⟨by simp [TransformPred, hne], ?_⟩
    obtain ⟨r, hr, hrl, hmax⟩ :=
      GetMaxIndex_loop_spec pred pred.length 1 0 (by omega) (by omega) (by omega)
        (by
          intro j hj hjl hm
          have : j = 0 := by omega
          subst this; exact le_rfl)
        (by intro j hj; omega)
    have hg : GetMaxIndex pred = r := hr
    subst hg
    exact ⟨hrl, hmax⟩
  · intro Resize act t n out_temp
    rfl
  · intro Resize act t n out_temp hnets hdev hpos hfit hcap
    obtain ⟨out, hfw, hrows⟩ :=
      ForwardTo_spec Resize act t n out_temp hnets hdev hpos hfit hcap
    unfold Predict
    rw [hfw, Option.map_some']
    congr 1
    apply List.map_congr_left
    intro x hx
    rw [hrows x (List.mem_range.mp hx)]

/-- The two examples of C6: `[0.42]` yields `0.42`, and `[0.1, 0.9, 0.3, 0.2]` yields
index 1; and `Predict` on a batch of 3 samples with one output each, on the trainer the
small instance initializes. -/
theorem transform_pred_collapse_witness :
    TransformPred (fun i => (i : ℚ)) [42 / 100] = 42 / 100 ∧
    TransformPred (fun i => (i : ℚ)) [1 / 10, 9 / 10, 3 / 10, 2 / 10] = 1 ∧
    Predict (fun i => (i : ℚ)) (fun out _ => out) (fun _ x => [(x : ℚ) / 2])
      (smallTrainer [Call.InitModel]) 3 (fun _ => []) = some [0, 1 / 2, 1] := by
  refine ⟨(transform_pred_collapse (fun i => (i : ℚ))).1 _, ?_, ?_⟩
  · rw [((transform_pred_collapse (fun i => (i : ℚ))).2.1 [1 / 10, 9 / 10, 3 / 10, 2 / 10]
      (by decide)).1]
    norm_num [GetMaxIndex, GetMaxIndex_loop]
  · rw [(transform_pred_collapse (fun i => (i : ℚ))).2.2.2 (fun out _ => out)
      (fun _ x => [(x : ℚ) / 2]) (smallTrainer [Call.InitModel]) 3 (fun _ => [])
      (by decide) (by decide) (by decide) (by decide) (by decide)]
    norm_num [List.range, List.range.loop, TransformPred]

/-! ## C7: padding samples in `Evaluate` -/

theorem Evaluate_batch_spec {α : Type} (Resize : (Nat → List α) → Nat → Nat → List α)
    (act : DataBatch α → Nat → Nat → List α)
    (t : CXXNetThreadTrainer) (out_temp : Nat → List α) (batch : DataBatch α)
    (hnets : t.nets_ ≠ []) (hdev : t.devices_.length = t.nets_.length)
    (hpos : 0 < t.batch_size)
    (hfit : t.nets_.length *
      max ((t.batch_size + t.nets_.length - 1) / t.nets_.length) 1 < 2 ^ 32)
    (hpad : batch.num_batch_padd ≤ batch.batch_size)
    (hcap : batch.batch_size ≤ t.batch_size) :
    ∃ out, Evaluate_batch Resize act t out_temp batch =
      some (out,
        { predscore := (List.range (batch.batch_size - batch.num_batch_padd)).map fun x =>
            act batch (x / max ((t.batch_size + t.nets_.length - 1) / t.nets_.length) 1) x
          labels := GetLabelInfo t.net_cfg batch }) := by
  obtain ⟨out, hfw, hrows⟩ :=
    ForwardTo_spec Resize (act batch) t batch.batch_size out_temp hnets hdev hpos hfit hcap
  obtain ⟨_, _, hcover⟩ := trainer_step_fit t hnets hpos hfit
  have hbound : (batch.batch_size + INDEX_MOD - batch.num_batch_padd % INDEX_MOD) % INDEX_MOD =
      batch.batch_size - batch.num_batch_padd := by
    unfold INDEX_MOD; omega
  refine ⟨out, ?_⟩
  unfold Evaluate_batch
  rw [hfw]
  simp only [hbound]
  rw [if_neg (by omega)]
  congr 3
  apply List.map_congr_left
  intro x hx
  have hx2 : x < batch.batch_size := by
    have := List.mem_range.mp hx
    omega
  exact hrows x hx2

/-- C7 as stated fails.  For a batch of 10 samples declaring 3 padding samples,
`Evaluate` passes the activations of the first 7 samples to `metric.AddEval`, but the
label view it passes is `GetLabelInfo(batch)`, which has all 10 rows, the labels of the
padding samples 7, 8, 9 included.  And when the batch exceeds what the replicas cover
(configured batch size 6 on 2 devices: the slices are `[0, 3)` and `[3, 6)`), row 6 of the
7 rows passed was written by no replica: it is what resizing left in the buffer (here
`[-1]`), not the activation of sample 6. -/
theorem evaluate_padding_counterexample :
    (Evaluate (fun out _ => out) (fun _ _ x => [(x : Int)]) (smallTrainer [Call.InitModel])
        (fun _ => [-1]) (some [paddedBatch]) =
      some [{ predscore := [[0], [1], [2], [3], [4], [5], [6]]
              labels := { fields := [[[0], [1], [2], [3], [4], [5], [6], [7], [8], [9]]] } }] ∧
    Evaluate (fun out _ => out) (fun _ _ x => [(x : Int)]) (smallTrainer [Call.InitModel])
        (fun _ => [-1]) (some [paddedBatch]) ≠
      some [{ predscore := [[0], [1], [2], [3], [4], [5], [6]]
              labels := { fields := [[[0], [1], [2], [3], [4], [5], [6]]] } }]) ∧
    dispatchRanges 6 2 2 10 =
      [{ replica := 1, begin_ := 3, end_ := 6 }, { replica := 0, begin_ := 0, end_ := 3 }] ∧
    Evaluate (fun out _ => out) (fun _ _ x => [(x : Int)])
        (smallTrainer [Call.SetParam "batch_size" "6", Call.SetParam "dev" "gpu:0-1",
          Call.InitModel]) (fun _ => [-1]) (some [paddedBatch]) =
      some [{ predscore := [[0], [1], [2], [3], [4], [5], [-1]]
              labels := { fields := [[[0], [1], [2], [3], [4], [5], [6], [7], [8], [9]]] } }] := by
  decide

/-- C7 (amended): on an initialized trainer (`devices_.size() == nets_.size() ≥ 1`,
positive configured `batch_size`, and `nets_.size() * step < 2^32` so that no `index_t`
product wraps, with `step = max(ceil(batch_size / nets_.size()), 1)`), for every
sequence of evaluation batches, each of `n ≤ batch_size` samples declaring
`num_batch_padd = p ≤ n`, whatever `out_temp` held before and whatever resizing leaves in
it, `Evaluate` returns and feeds `metric.AddEval`, once per batch, the activations of
exactly the first `n - p` samples, sample `x` as computed by the replica `x / step` that
was handed its slice, together with the label view `GetLabelInfo(batch)`, every field of
which has all `n` rows of the batch. -/
theorem evaluate_padding {α : Type} (Resize : (Nat → List α) → Nat → Nat → List α)
    (act : DataBatch α → Nat → Nat → List α)
    (t : CXXNetThreadTrainer) (out_temp : Nat → List α) (batches : List (DataBatch α))
    (hnets : t.nets_ ≠ []) (hdev : t.devices_.length = t.nets_.length)
    (hpos : 0 < t.batch_size)
    (hfit : t.nets_.length *
      max ((t.batch_size + t.nets_.length - 1) / t.nets_.length) 1 < 2 ^ 32)
    (hbatch : ∀ b ∈ batches, b.num_batch_padd ≤ b.batch_size ∧ b.batch_size ≤ t.batch_size) :
    ∃ calls, Evaluate Resize act t out_temp (some batches) = some calls ∧
      List.Forall₂
        (fun (b : DataBatch α) (call : AddEvalCall α) =>
          call.predscore = (List.range (b.batch_size - b.num_batch_padd)).map (fun x =>
            act b (x / max ((t.batch_size + t.nets_.length - 1) / t.nets_.length) 1) x) ∧
          call.labels = GetLabelInfo t.net_cfg b ∧
          ∀ f ∈ call.labels.fields, f.length = b.batch_size)
        batches calls := by
  induction batches generalizing out_temp with
  | nil => exact ⟨[], rfl, List.Forall₂.nil⟩
  | cons b bs ih =>
    obtain ⟨hp, hs⟩ := hbatch b (List.mem_cons_self _ _)
    obtain ⟨out, hb⟩ := Evaluate_batch_spec Resize act t out_temp b hnets hdev hpos hfit hp hs
    obtain ⟨calls, hcalls, hall⟩ :=
      ih out (fun b2 hb2 => hbatch b2 (List.mem_cons_of_mem _ hb2))
    refine ⟨{ predscore := (List.range (b.batch_size - b.num_batch_padd)).map (fun x =>
                act b (x / max ((t.batch_size + t.nets_.length - 1) / t.nets_.length) 1) x)
              labels := GetLabelInfo t.net_cfg b } :: calls, ?_,
      List.Forall₂.cons ⟨rfl, rfl, ?_⟩ hall⟩
    · simp only [Evaluate] at hcalls ⊢
      rw [Evaluate_loop, hb]
      simp only [hcalls]
    · intro f hf
      simp only [GetLabelInfo, List.mem_map] at hf
      obtain ⟨range, _, rfl⟩ := hf
      simp

/-- A check of C7 (amended) on the batch of 10 samples with 3 padding samples, on the
trainer the small instance initializes on two devices (step 50, so replica 0 computes
all 10 samples). -/
theorem evaluate_padding_witness :
    ∃ calls, Evaluate (fun out _ => out) (fun _ k x => [(k : Int), (x : Int)])
        (smallTrainer [Call.SetParam "dev" "gpu:0-1", Call.InitModel]) (fun _ => [-1])
        (some [paddedBatch]) = some calls ∧
      calls = [{ predscore := [[0, 0], [0, 1], [0, 2], [0, 3], [0, 4], [0, 5], [0, 6]]
                 labels := { fields := [[[0], [1], [2], [3], [4], [5], [6], [7], [8], [9]]] } }] ∧
      List.Forall₂
        (fun (b : DataBatch Int) (call : AddEvalCall Int) =>
          call.predscore = (List.range (b.batch_size - b.num_batch_padd)).map (fun x =>
            [((x / max (((smallTrainer [Call.SetParam "dev" "gpu:0-1",
                Call.InitModel]).batch_size +
              (smallTrainer [Call.SetParam "dev" "gpu:0-1", Call.InitModel]).nets_.length - 1) /
              (smallTrainer [Call.SetParam "dev" "gpu:0-1", Call.InitModel]).nets_.length) 1 :
              Nat) : Int), (x : Int)]) ∧
          call.labels = GetLabelInfo
            (smallTrainer [Call.SetParam "dev" "gpu:0-1", Call.InitModel]).net_cfg b ∧
          ∀ f ∈ call.labels.fields, f.length = b.batch_size)
        [paddedBatch] calls := by
  obtain ⟨calls, h1, h2⟩ := evaluate_padding (fun out _ => out)
    (fun _ k x => [(k : Int), (x : Int)])
    (smallTrainer [Call.SetParam "dev" "gpu:0-1", Call.InitModel]) (fun _ => [-1])
    [paddedBatch] (by decide) (by decide) (by decide) (by decide) (by decide)
  have hev : Evaluate (fun out _ => out) (fun _ k x => [(k : Int), (x : Int)])
      (smallTrainer [Call.SetParam "dev" "gpu:0-1", Call.InitModel]) (fun _ => [-1])
      (some [paddedBatch]) =
      some [{ predscore := [[0, 0], [0, 1], [0, 2], [0, 3], [0, 4], [0, 5], [0, 6]]
              labels := { fields := [[[0], [1], [2], [3], [4], [5], [6], [7], [8], [9]]] } }] := by
    decide
  rw [h1] at hev
  exact ⟨calls, h1, Option.some.inj hev, h2⟩

/-! ## C4: `SaveModel` followed by `LoadModel` -/

theorem readWord_writeWord (u : Nat) (rest : List Nat) (hu : u < 2 ^ 64) :
    readWord (writeWord u ++ rest) = some (u, rest) := by
  have hlen : ¬ ((writeWord u ++ rest).length < 8) := by
    simp [writeWord]
  unfold readWord
  rw [if_neg hlen]
  simp only [writeWord, List.cons_append, List.nil_append, List.take_succ_cons, List.take_zero,
    List.drop_succ_cons, List.drop_zero, List.foldr_cons, List.foldr_nil]
  norm_num
  omega

theorem readLong_writeLong (v : Int) (rest : List Nat) (hlo : -(2 : Int) ^ 63 ≤ v)
    (hhi : v < (2 : Int) ^ 63) : readLong (writeLong v ++ rest) = some (v, rest) := by
  have hu : (v % (2 : Int) ^ 64).toNat < 2 ^ 64 := by omega
  unfold readLong writeLong
  rw [readWord_writeWord _ rest hu]
  simp only
  congr 2
  split <;> omega

theorem readString_writeString (data rest : List Nat) (hlen : data.length < 2 ^ 64) :
    readString (writeString data ++ rest) = some (data, rest) := by
  have hmod : data.length % SIZE_MOD = data.length := by
    unfold SIZE_MOD; exact Nat.mod_eq_of_lt hlen
  unfold readString writeString
  rw [hmod, List.append_assoc, readWord_writeWord _ _ hlen]
  simp

/-- C4: for every trainer `t` that has a replica 0 (and whose `epoch_counter` is a `long`,
whose blob length fits the 64-bit prefix, and whose topology `LoadNet` reads back from
what `SaveNet` wrote), `SaveModel` writes the topology, the epoch counter and the
length-prefixed blob of replica 0 in this order, and `LoadModel` of that stream on any
trainer `t2` with a positive `index_t` batch size (the constructor's state included)
reads them back in the same order: it returns a trainer with the saved `epoch_counter`,
with `model_blob_` equal to the blob replica 0 serialized, and with at least one replica,
every one of which has loaded exactly that blob; so if a replica's `LoadModel` undoes its
`SaveModel`, every replica has the weights of the saved replica 0. -/
theorem save_load_roundtrip (c : Collaborators) (t t2 : CXXNetThreadTrainer)
    (r0 : NeuralNetThread) (rest : List NeuralNetThread)
    (hnets : t.nets_ = r0 :: rest)
    (hcodec : ∀ tail, c.LoadNet (c.SaveNet t.net_cfg ++ tail) = some (t.net_cfg, tail))
    (hlo : -(2 : Int) ^ 63 ≤ t.epoch_counter) (hhi : t.epoch_counter < (2 : Int) ^ 63)
    (hblob : (c.NetSave r0.weights).length < 2 ^ 64)
    (hpos : 0 < t2.batch_size) (hB : t2.batch_size < 2 ^ 32)
    (hdevs : t2.devices_.length < 2 ^ 63) :
    ∃ t1 t3,
      SaveModel c t = some (t1, c.SaveNet t.net_cfg ++ writeLong t.epoch_counter ++
        writeString (c.NetSave r0.weights)) ∧
      LoadModel c t2 (c.SaveNet t.net_cfg ++ writeLong t.epoch_counter ++
        writeString (c.NetSave r0.weights)) = some t3 ∧
      t3.epoch_counter = t.epoch_counter ∧
      t3.model_blob_ = c.NetSave r0.weights ∧
      t3.net_cfg = c.Configure t.net_cfg t2.cfg ∧
      t3.nets_ ≠ [] ∧
      (∀ r ∈ t3.nets_, r.weights = c.NetLoad r.cfg (c.NetSave r0.weights)) ∧
      ((∀ cfg, c.NetLoad cfg (c.NetSave r0.weights) = r0.weights) →
        ∀ r ∈ t3.nets_, r.weights = r0.weights) := by
  obtain ⟨dv, tp, ps, r, rs, _, hinit⟩ := InitNet_some c
    (FreeNet { t2 with net_cfg := t.net_cfg, epoch_counter := t.epoch_counter })
    rfl rfl hpos hB hdevs
  have hsave : SaveModel c t = some ({ t with model_blob_ := c.NetSave r0.weights },
      c.SaveNet t.net_cfg ++ writeLong t.epoch_counter ++
        writeString (c.NetSave r0.weights)) := by
    simp only [SaveModel, Save2ModelBlob, hnets, NeuralNetThread.SaveModel]
  have hstr : readString (writeString (c.NetSave r0.weights)) =
      some (c.NetSave r0.weights, []) := by
    have := readString_writeString (c.NetSave r0.weights) [] hblob
    rwa [List.append_nil] at this
  have hload : LoadModel c t2 (c.SaveNet t.net_cfg ++ writeLong t.epoch_counter ++
      writeString (c.NetSave r0.weights)) = some
        { (FreeNet { t2 with net_cfg := t.net_cfg, epoch_counter := t.epoch_counter }) with
          net_cfg := c.Configure t.net_cfg t2.cfg
          devices_ := dv
          type_pserver := tp
          pserver := ps
          model_blob_ := c.NetSave r0.weights
          nets_ := (r :: rs).map fun x => x.LoadModel c (c.NetSave r0.weights) } := by
    unfold LoadModel
    rw [List.append_assoc, hcodec]
    simp only [readLong_writeLong _ _ hlo hhi, hinit, hstr]
    rfl
  refine ⟨_, _, hsave, hload, rfl, rfl, rfl, by simp, ?_, ?_⟩
  · intro x hx
    obtain ⟨y, _, rfl⟩ := List.mem_map.mp hx
    rfl
  · intro hundo x hx
    obtain ⟨y, _, rfl⟩ := List.mem_map.mp hx
    exact hundo y.cfg

/-- A check of C4 in the small instance: the model of `savedTrainer` (epoch counter 5,
replica 0 with the weights `[44]`, `[44]`) is saved and loaded by a trainer that was only
given two devices; both of its replicas end with the weights of the saved replica 0. -/
theorem save_load_roundtrip_witness :
    ∃ t1 t3 bytes,
      SaveModel smallCollab savedTrainer = some (t1, bytes) ∧
      LoadModel smallCollab (smallTrainer [Call.SetParam "dev" "gpu:0-1"]) bytes = some t3 ∧
      t3.epoch_counter = 5 ∧
      t3.model_blob_ = [44, 44] ∧
      t3.nets_.length = 2 ∧
      ∀ r ∈ t3.nets_, r.weights = [[44], [44]] := by
  have hcfg : savedTrainer.net_cfg = { layers := ["conv1", "fc2"], label_range := [(0, 1)] } := by
    decide
  obtain ⟨t1, t3, h1, h2, h3, h4, _, _, _, h8⟩ := save_load_roundtrip smallCollab savedTrainer
    (smallTrainer [Call.SetParam "dev" "gpu:0-1"])
    { cfg := { layers := ["conv1", "fc2"], label_range := [(0, 1)] }
      pserver := some { type := "local"
                        params := [("layer", "conv1"), ("layer", "fc2"), ("dev", "gpu:0-1"),
                          ("seed", "3")]
                        devices := [0, 1] }
      device := 0, batch_size := 50, seed := 300, weights := [[44], [44]] }
    (savedTrainer.nets_.tail)
    (by decide)
    (by
      intro tail
      rw [hcfg]
      simp [smallCollab, smallCode, smallName])
    (by decide) (by decide) (by decide) (by decide) (by decide) (by decide)
  have hlen : (LoadModel smallCollab (smallTrainer [Call.SetParam "dev" "gpu:0-1"])
      (smallCollab.SaveNet savedTrainer.net_cfg ++ writeLong savedTrainer.epoch_counter ++
        writeString (smallCollab.NetSave [[44], [44]]))).map (fun t => t.nets_.length) =
      some 2 := by decide
  rw [h2] at hlen
  simp only [Option.map_some', Option.some.injEq] at hlen
  exact ⟨t1, t3, _, h1, h2, h3, h4, hlen, h8 (fun _ => rfl)⟩

/-! ## C5: `CopyModelFrom` copies the layers with matching names -/

theorem innerWeights_succ (old_name : String) (data : List Nat) (new_layers : List String)
    (m : Nat) (w : List (List Nat)) :
    innerWeights old_name data new_layers (m + 1) w =
      if old_name = new_layers.getD m "" ∧ old_name ≠ "" then
        (innerWeights old_name data new_layers m w).set m data
      else innerWeights old_name data new_layers m w := by
  simp only [innerWeights, List.range_succ, List.foldl_append, List.foldl_cons, List.foldl_nil]

theorem innerWeights_spec (old_name : String) (data : List Nat) (new_layers : List String)
    (w : List (List Nat)) :
    ∀ m, (innerWeights old_name data new_layers m w).length = w.length ∧
      ∀ j, (innerWeights old_name data new_layers m w)[j]? =
        if j < m ∧ old_name = new_layers.getD j "" ∧ old_name ≠ "" then
          (if j < w.length then some data else none)
        else w[j]? := by
  intro m
  induction m with
  | zero => simp [innerWeights]
  | succ m ih =>
    obtain ⟨hlen, hget⟩ := ih
    rw [innerWeights_succ]
    by_cases hc : old_name = new_layers.getD m "" ∧ old_name ≠ ""
    · rw [if_pos hc]
      refine ⟨by rw [List.length_set, hlen], fun j => ?_⟩
      rw [List.getElem?_set, hlen]
      by_cases hmj : m = j
      · subst hmj
        have hcond : m < m + 1 ∧ old_name = new_layers.getD m "" ∧ old_name ≠ "" :=
          ⟨Nat.lt_succ_self _, hc⟩
        rw [if_pos rfl, if_pos hcond]
      · rw [if_neg hmj, hget j]
        have : (j < m + 1 ∧ old_name = new_layers.getD j "" ∧ old_name ≠ "") ↔
            (j < m ∧ old_name = new_layers.getD j "" ∧ old_name ≠ "") := by
          constructor
          · rintro ⟨h1, h2⟩; exact ⟨by omega, h2⟩
          · rintro ⟨h1, h2⟩; exact ⟨by omega, h2⟩
        simp only [this]
    · rw [if_neg hc]
      refine ⟨hlen, fun j => ?_⟩
      rw [hget j]
      have : (j < m + 1 ∧ old_name = new_layers.getD j "" ∧ old_name ≠ "") ↔
          (j < m ∧ old_name = new_layers.getD j "" ∧ old_name ≠ "") := by
        constructor
        · rintro ⟨h1, h2⟩
          refine ⟨?_, h2⟩
          rcases Nat.lt_succ_iff_lt_or_eq.mp h1 with h | h
          · exact h
          · subst h; exact absurd h2 hc
        · rintro ⟨h1, h2⟩; exact ⟨by omega, h2⟩
      simp only [this]

theorem outerWeights_succ (old_layers : List String) (old_weights : List (List Nat))
    (new_layers : List String) (n : Nat) (w : List (List Nat)) :
    outerWeights old_layers old_weights new_layers (n + 1) w =
      innerWeights (old_layers.getD n "") (old_weights.getD n []) new_layers new_layers.length
        (outerWeights old_layers old_weights new_layers n w) := by
  simp only [outerWeights, List.range_succ, List.foldl_append, List.foldl_cons, List.foldl_nil]

theorem outerWeights_spec (old_layers : List String) (old_weights : List (List Nat))
    (new_layers : List String) (w : List (List Nat)) :
    ∀ n, (outerWeights old_layers old_weights new_layers n w).length = w.length ∧
      (∀ j, (∀ i, i < n → ¬ (j < new_layers.length ∧
            old_layers.getD i "" = new_layers.getD j "" ∧ old_layers.getD i "" ≠ "")) →
        (outerWeights old_layers old_weights new_layers n w)[j]? = w[j]?) ∧
      (∀ j i, i < n → j < new_layers.length →
        old_layers.getD i "" = new_layers.getD j "" → old_layers.getD i "" ≠ "" →
        (∀ i2, i < i2 → i2 < n → old_layers.getD i2 "" ≠ new_layers.getD j "") →
        (outerWeights old_layers old_weights new_layers n w)[j]? =
          if j < w.length then some (old_weights.getD i []) else none) := by
  intro n
  induction n with
  | zero =>
    refine ⟨rfl, fun j _ => rfl, fun j i hi => ?_⟩
    omega
  | succ n ih =>
    obtain ⟨hlen, hA, hB⟩ := ih
    obtain ⟨hlen2, hget⟩ := innerWeights_spec (old_layers.getD n "") (old_weights.getD n [])
      new_layers (outerWeights old_layers old_weights new_layers n w) new_layers.length
    rw [outerWeights_succ]
    refine ⟨hlen2.trans hlen, ?_, ?_⟩
    · intro j hno
      rw [hget j, if_neg (hno n (Nat.lt_succ_self n))]
      exact hA j (fun i hi => hno i (Nat.lt_succ_of_lt hi))
    · intro j i hi hj hname hne hlast
      rw [hget j, hlen]
      rcases Nat.lt_succ_iff_lt_or_eq.mp hi with h | h
      · have hn : ¬ (j < new_layers.length ∧
            old_layers.getD n "" = new_layers.getD j "" ∧ old_layers.getD n "" ≠ "") :=
          fun hc => hlast n h (Nat.lt_succ_self n) hc.2.1
        rw [if_neg hn]
        exact hB j i h hj hname hne (fun i2 h1 h2 => hlast i2 h1 (Nat.lt_succ_of_lt h2))
      · subst h
        have hcond : j < new_layers.length ∧
            old_layers.getD i "" = new_layers.getD j "" ∧ old_layers.getD i "" ≠ "" :=
          ⟨hj, hname, hne⟩
        rw [if_pos hcond]

theorem copyInner_fold (old_name : String) (data : List Nat) (i : Nat)
    (new_layers : List String) (nets : List NeuralNetThread) (log : List (Nat × Nat)) :
    ∀ m, (List.range m).foldl
        (fun (st : List NeuralNetThread × List (Nat × Nat)) j =>
          if old_name = new_layers.getD j "" ∧ old_name ≠ "" then
            (st.1.map fun r => r.CopyLayer j data, st.2 ++ [(i, j)])
          else st)
        (nets, log) =
      (nets.map fun r => { r with weights := innerWeights old_name data new_layers m r.weights },
        log ++ ((List.range m).filter
          fun j => decide (old_name = new_layers.getD j "" ∧ old_name ≠ "")).map
            fun j => (i, j)) := by
  intro m
  induction m with
  | zero =>
    simp only [List.range_zero, List.foldl_nil, List.filter_nil, List.map_nil, List.append_nil,
      innerWeights]
    congr 1
    exact (List.map_id _).symm
  | succ m ih =>
    rw [List.range_succ, List.foldl_append, ih]
    simp only [List.foldl_cons, List.foldl_nil, List.filter_append, List.map_append]
    by_cases hc : old_name = new_layers.getD m "" ∧ old_name ≠ ""
    · rw [if_pos hc]
      simp only [List.map_map]
      refine Prod.ext ?_ ?_
      · apply List.map_congr_left
        intro r _
        simp only [Function.comp, NeuralNetThread.CopyLayer, innerWeights_succ, if_pos hc]
      · have hd : decide (old_name = new_layers.getD m "" ∧ old_name ≠ "") = true :=
          decide_eq_true hc
        have hfilter : List.filter
            (fun j => decide (old_name = new_layers.getD j "" ∧ old_name ≠ "")) [m] = [m] := by
          simp only [List.filter, hd]
        show log ++ _ ++ [(i, m)] = log ++ (_ ++ List.map (fun j => (i, j)) (List.filter _ [m]))
        rw [hfilter, List.append_assoc]
        rfl
    · rw [if_neg hc]
      refine Prod.ext ?_ ?_
      · apply List.map_congr_left
        intro r _
        simp only [innerWeights_succ, if_neg hc]
      · have hfilter : List.filter
            (fun j => decide (old_name = new_layers.getD j "" ∧ old_name ≠ "")) [m] = [] := by
          simp only [List.filter, decide_eq_false hc]
        show log ++ _ = log ++ (_ ++ List.map (fun j => (i, j)) (List.filter _ [m]))
        rw [hfilter, List.map_nil, List.append_nil]

theorem copyInner_spec (old_name : String) (data : List Nat) (i : Nat)
    (new_layers : List String) (nets : List NeuralNetThread) (log : List (Nat × Nat)) :
    ∃ log2, copyInner old_name data i new_layers (nets, log) =
        (nets.map fun r =>
          { r with weights := innerWeights old_name data new_layers new_layers.length r.weights },
          log2) ∧
      ∀ p : Nat × Nat, p ∈ log2 ↔
        p ∈ log ∨ (p.1 = i ∧ p.2 < new_layers.length ∧
          old_name = new_layers.getD p.2 "" ∧ old_name ≠ "") := by
  refine ⟨_, copyInner_fold old_name data i new_layers nets log new_layers.length, ?_⟩
  intro p
  simp only [List.mem_append, List.mem_map, List.mem_filter, List.mem_range,
    decide_eq_true_eq]
  constructor
  · rintro (h | ⟨j, ⟨hj, hc⟩, rfl⟩)
    · exact Or.inl h
    · exact Or.inr ⟨rfl, hj, hc⟩
  · rintro (h | ⟨h1, h2, h3⟩)
    · exact Or.inl h
    · exact Or.inr ⟨p.2, ⟨h2, h3⟩, by rw [← h1]⟩

theorem copyLayers_fold (old_cfg : NetConfig) (old_weights : List (List Nat))
    (net_cfg : NetConfig) (nets : List NeuralNetThread) :
    ∀ n, ∃ log, (List.range n).foldl
        (fun st i =>
          copyInner (old_cfg.layers.getD i "") (old_weights.getD i []) i net_cfg.layers st)
        (nets, []) =
        (nets.map fun r =>
          { r with weights :=
              outerWeights old_cfg.layers old_weights net_cfg.layers n r.weights }, log) ∧
      ∀ p : Nat × Nat, p ∈ log ↔
        (p.1 < n ∧ p.2 < net_cfg.layers.length ∧
          old_cfg.layers.getD p.1 "" = net_cfg.layers.getD p.2 "" ∧
          old_cfg.layers.getD p.1 "" ≠ "") := by
  intro n
  induction n with
  | zero =>
    refine ⟨[], ?_, fun p => by simp⟩
    simp only [List.range_zero, List.foldl_nil, outerWeights]
    congr 1
    exact (List.map_id _).symm
  | succ n ih =>
    obtain ⟨log, hfold, hlog⟩ := ih
    obtain ⟨log2, hinner, hlog2⟩ := copyInner_spec (old_cfg.layers.getD n "")
      (old_weights.getD n []) n net_cfg.layers
      (nets.map fun r =>
        { r with weights := outerWeights old_cfg.layers old_weights net_cfg.layers n r.weights })
      log
    refine ⟨log2, ?_, ?_⟩
    · rw [List.range_succ, List.foldl_append, hfold]
      simp only [List.foldl_cons, List.foldl_nil, hinner, List.map_map]
      congr 1
      apply List.map_congr_left
      intro r _
      simp only [Function.comp, outerWeights_succ]
    · intro p
      rw [hlog2 p, hlog p]
      constructor
      · rintro (⟨h1, h2⟩ | ⟨h1, h2, h3, h4⟩)
        · exact ⟨Nat.lt_succ_of_lt h1, h2⟩
        · rw [h1]; exact ⟨Nat.lt_succ_self n, h2, h3, h4⟩
      · rintro ⟨h1, h2, h3, h4⟩
        rcases Nat.lt_succ_iff_lt_or_eq.mp h1 with h | h
        · exact Or.inl ⟨h, h2, h3, h4⟩
        · rw [h] at h3 h4
          exact Or.inr ⟨h, h2, h3, h4⟩

/-- C5: when the preliminary steps of `CopyModelFrom` succeed (`InitModel` gives the
freshly initialized trainer `t0`, and the old topology, epoch counter and model blob are
read from the stream), `CopyModelFrom` succeeds whatever the layer names are; the copy
body runs for the pair `(i, j)` if and only if old layer `i` and new layer `j` have exactly
the same non-empty name; every active replica is changed in the same way `copied`, which
keeps the number of layers, leaves a new layer `j` without such an old layer at its
freshly initialized weights, and gives a new layer `j` with such an old layer the weights
of the (last) old layer of that name. -/
theorem copy_model_from (c : Collaborators) (t t0 : CXXNetThreadTrainer)
    (fi fi1 fi2 fi3 : List Nat) (old_cfg : NetConfig) (e : Int) (old_model : List Nat)
    (hinit : InitModel c (FreeNet t) = some t0)
    (hnet : c.LoadNet fi = some (old_cfg, fi1))
    (hepoch : readLong fi1 = some (e, fi2))
    (hmodel : readString fi2 = some (old_model, fi3)) :
    ∃ (t2 : CXXNetThreadTrainer) (log : List (Nat × Nat))
      (copied : List (List Nat) → List (List Nat)),
      CopyModelFrom c t fi = some (t2, log) ∧
      t2.epoch_counter = 0 ∧
      t2.net_cfg = t0.net_cfg ∧
      t2.nets_ = t0.nets_.map (fun r => { r with weights := copied r.weights }) ∧
      (∀ i j, (i, j) ∈ log ↔
        (i < old_cfg.layers.length ∧ j < t0.net_cfg.layers.length ∧
          old_cfg.layers.getD i "" = t0.net_cfg.layers.getD j "" ∧
          old_cfg.layers.getD i "" ≠ "")) ∧
      (∀ w, (copied w).length = w.length) ∧
      (∀ w j,
        (¬ ∃ i, i < old_cfg.layers.length ∧ j < t0.net_cfg.layers.length ∧
          old_cfg.layers.getD i "" = t0.net_cfg.layers.getD j "" ∧
          old_cfg.layers.getD i "" ≠ "") →
        (copied w)[j]? = w[j]?) ∧
      (∀ w j i, i < old_cfg.layers.length → j < t0.net_cfg.layers.length →
        old_cfg.layers.getD i "" = t0.net_cfg.layers.getD j "" →
        old_cfg.layers.getD i "" ≠ "" →
        (∀ i2, i < i2 → i2 < old_cfg.layers.length →
          old_cfg.layers.getD i2 "" ≠ t0.net_cfg.layers.getD j "") →
        (copied w)[j]? =
          if j < w.length then some ((c.NetLoad old_cfg old_model).getD i []) else none) := by
  obtain ⟨log, hfold, hlog⟩ := copyLayers_fold old_cfg (c.NetLoad old_cfg old_model)
    t0.net_cfg t0.nets_ old_cfg.layers.length
  refine ⟨{ t0 with
      epoch_counter := 0
      nets_ := (t0.nets_.map (fun r =>
        { r with weights := (outerWeights old_cfg.layers (c.NetLoad old_cfg old_model)
            t0.net_cfg.layers old_cfg.layers.length r.weights) })) },
    log, outerWeights old_cfg.layers (c.NetLoad old_cfg old_model) t0.net_cfg.layers
    old_cfg.layers.length, ?_, rfl, rfl, rfl, ?_, ?_, ?_, ?_⟩
  · simp only [CopyModelFrom, hinit, hnet, hepoch, hmodel, copyLayers,
      NeuralNetThread.LoadModel, NeuralNetThread.create, hfold]
  · intro i j
    exact hlog (i, j)
  · intro w
    exact (outerWeights_spec _ _ _ w _).1
  · intro w j hno
    exact (outerWeights_spec _ _ _ w _).2.1 j
      (fun i hi hc => hno ⟨i, hi, hc.1, hc.2.1, hc.2.2⟩)
  · intro w j i hi hj hname hne hlast
    exact (outerWeights_spec _ _ _ w _).2.2 j i hi hj hname hne hlast

/-- The example of C5: the old layers `conv1`, `fc1` and the new layers `conv1`, `fc2`.
Only the pair (old 0, new 0) is copied: the replica ends with the old weights `[11]` in
`conv1` and its freshly initialized weights `[188]` in `fc2`. -/
theorem copy_model_from_witness :
    ∃ (t2 : CXXNetThreadTrainer) (log : List (Nat × Nat)),
      CopyModelFrom smallCollab copyTarget oldModelStream = some (t2, log) ∧
      log = [(0, 0)] ∧
      (smallTrainer [Call.SetParam "layer" "conv1", Call.SetParam "layer" "fc2",
        Call.SetParam "seed" "7", Call.InitModel]).nets_.map NeuralNetThread.weights =
        [[[188], [188]]] ∧
      t2.nets_.map NeuralNetThread.weights = [[[11], [188]]] := by
  obtain ⟨t2, log, _, h1, _⟩ := copy_model_from smallCollab copyTarget
    (smallTrainer [Call.SetParam "layer" "conv1", Call.SetParam "layer" "fc2",
      Call.SetParam "seed" "7", Call.InitModel])
    oldModelStream (writeLong 5 ++ writeString [11, 12]) (writeString [11, 12]) []
    { layers := ["conv1", "fc1"], label_range := [(0, 1)] } 5 [11, 12]
    (by decide) (by decide) (by decide) (by decide)
  have hev : (CopyModelFrom smallCollab copyTarget oldModelStream).map
      (fun r => (r.2, r.1.nets_.map NeuralNetThread.weights)) =
      some ([(0, 0)], [[[11], [188]]]) := by decide
  rw [h1] at hev
  simp only [Option.map_some', Option.some.injEq, Prod.mk.injEq] at hev
  exact ⟨t2, log, h1, hev.1, by decide, hev.2⟩

/-! ## C9: the default synchronization strategy -/

theorem InitParamServer_unspecified (t : CXXNetThreadTrainer) (hps : t.pserver = none)
    (htype : t.type_pserver = "UNSPECIFIED") (hdev : t.devices_ ≠ []) :
    ∃ t2, InitParamServer t = some t2 ∧
      (1 < t.devices_.length → t2.type_pserver = "local" ∧ t2.pserver.isSome = true) ∧
      (t.devices_.length ≤ 1 → t2.type_pserver = "NONE" ∧ t2.pserver = none) := by
  have hlen : t.devices_.length ≠ 0 := fun h => hdev (List.length_eq_zero.mp h)
  obtain ⟨ps, tp, ep, sd, up, sc, et, me, tm, bs, dv, mb, ns, nc, cf⟩ := t
  simp only at hps htype hlen
  subst hps htype
  by_cases h2 : dv.length ≤ 1
  · have h3 : ¬ (1 < dv.length) := by omega
    simp [InitParamServer, h2, h3]
  · have h3 : 1 < dv.length := by omega
    simp [InitParamServer, h2, h3, hlen]

/-- C9 fails on the code: `reinitCalls` never sets `param_server`.  Its first four calls
initialize a model on one device, which resolves `type_pserver` from `UNSPECIFIED` to
`NONE` and stores it; the stream loaded afterwards is what `SaveModel` writes at that
point.  The initialization run by `LoadModel` then has two active devices and two
replicas, finds `type_pserver == "NONE"` and creates no parameter server.  The same two
devices on a first initialization get the strategy `local`. -/
theorem param_server_reinit :
    reinitCalls.all (fun call => !call.setsParamServer) = true ∧
    (runCalls smallCollab CXXNetThreadTrainer.fresh (reinitCalls.take 4)).map
        (fun t => (t.devices_, t.nets_.length, t.pserver.isSome, t.type_pserver)) =
      some ([0], 1, false, "NONE") ∧
    (SaveModel smallCollab (smallTrainer (reinitCalls.take 4))).map Prod.snd =
      some savedStream ∧
    (runCalls smallCollab CXXNetThreadTrainer.fresh reinitCalls).map
        (fun t => (t.devices_, t.nets_.length, t.pserver.isSome, t.type_pserver)) =
      some ([0, 1], 2, false, "NONE") ∧
    (runCalls smallCollab CXXNetThreadTrainer.fresh
        [Call.SetParam "dev" "gpu:0-1", Call.InitModel]).map
        (fun t => (t.devices_, t.nets_.length, t.pserver.isSome, t.type_pserver)) =
      some ([0, 1], 2, true, "local") := by
  decide

end nnet
end cxxnet
